import Mathlib

/-!
# Verification of the MRXS region-extraction pipeline

A shallow embedding of `src/main.py` (`safe_convert_mrxs_to_jpg_with_crop`).

The Python function glues together external collaborators:

* `OpenSlide` (the Pyramid Source): modelled by the `Slide` structure, whose
  `read_region` may fail (I/O errors) and whose metadata fields mirror
  `level_count`, `level_dimensions`, `level_downsamples`.
* `cv2` image operations (`cvtColor RGB2GRAY`, `threshold`, `findContours`
  with `RETR_EXTERNAL`, `contourArea`, `boundingRect`): modelled concretely
  below from their documented integer semantics, at the granularity of
  run-length encoded pixel components.
* `PIL` image save, `time.time`, `time.sleep` and `tqdm` progress bars:
  modelled through an explicit environment (`Env`) and an event trace (`Ev`).

Real-valued quantities (`level_downsamples`, wall-clock times) are modelled
as rationals; Python's `int()` truncation toward zero is `pyInt`.
-/

namespace MRXS

/-- An RGBA pixel as returned by `OpenSlide.read_region` (a PIL RGBA image). -/
abbrev RGBA := Nat × Nat × Nat × Nat

/-- An RGB pixel (after `img.convert("RGB")`, which drops the alpha channel). -/
abbrev RGB := Nat × Nat × Nat

/-- Images are row-major lists of pixel rows. -/
abbrev Image (π : Type) := List (List π)

/-- Model of `img.convert("RGB")` on a PIL RGBA image: drop the alpha channel. -/
def toRGB (img : Image RGBA) : Image RGB :=
  img.map (fun row => row.map (fun p => (p.1, p.2.1, p.2.2.1)))

/-- Model of `cv2.cvtColor(..., cv2.COLOR_RGB2GRAY)` on 8-bit data: OpenCV's exact
fixed-point formula `(4899*R + 9617*G + 1868*B + 2^13) >> 14`. -/
def cvtColorGray (img : Image RGB) : Image Nat :=
  img.map (fun row => row.map (fun p => (4899 * p.1 + 9617 * p.2.1 + 1868 * p.2.2 + 8192) / 16384))

/-- Model of `cv2.threshold(gray, 10, 255, cv2.THRESH_BINARY)`: a pixel is foreground
(`255`, here `true`) exactly when its intensity is strictly greater than 10. -/
def cvThreshold10 (img : Image Nat) : Image Bool :=
  img.map (fun row => row.map (fun v => decide (10 < v)))

/-- Pixel lookup in a boolean mask, `false` outside the image. -/
def bGet (m : Image Bool) (r c : Nat) : Bool :=
  (m.getD r []).getD c false

/-- Pixel lookup in a grayscale image, `0` outside the image. -/
def nGet (m : Image Nat) (r c : Nat) : Nat :=
  (m.getD r []).getD c 0

/-- A maximal horizontal run of foreground pixels: row index and the inclusive
column interval `[lo, hi]`. Connected components of a binary mask are unions
of such runs. -/
structure Run where
  row : Nat
  lo : Nat
  hi : Nat
deriving DecidableEq, Repr

/-- The maximal runs of `true` values in one row, starting at column `i`;
`acc = some s` records a run in progress that started at column `s`. -/
def rowRunsAux : List Bool → Nat → Option Nat → List (Nat × Nat)
  | [], _, none => []
  | [], i, some s => [(s, i - 1)]
  | b :: bs, i, none => if b then rowRunsAux bs (i + 1) (some i) else rowRunsAux bs (i + 1) none
  | b :: bs, i, some s =>
    if b then rowRunsAux bs (i + 1) (some s) else (s, i - 1) :: rowRunsAux bs (i + 1) none

/-- The maximal runs of `true` values in one row. -/
def rowRuns (bs : List Bool) : List (Nat × Nat) := rowRunsAux bs 0 none

/-- All foreground runs of a mask, in row-major order. -/
def maskRuns (m : Image Bool) : List Run :=
  (m.enum.map (fun p => (rowRuns p.2).map (fun q => Run.mk p.1 q.1 q.2))).flatten

/-- 8-connectivity between two runs: rows adjacent, column intervals within
distance one (diagonal contact counts). Two maximal runs in the same row are
never 8-adjacent directly. -/
def adj8 (a b : Run) : Bool :=
  (a.row + 1 == b.row || b.row + 1 == a.row) && a.lo ≤ b.hi + 1 && b.lo ≤ a.hi + 1

/-- 4-connectivity between two runs: horizontal contact in the same row, or
vertical contact (overlapping column intervals) in adjacent rows. -/
def adj4 (a b : Run) : Bool :=
  (a.row == b.row && (a.hi + 1 == b.lo || b.hi + 1 == a.lo)) ||
    ((a.row + 1 == b.row || b.row + 1 == a.row) && a.lo ≤ b.hi && b.lo ≤ a.hi)

section Closure

variable (rs : List Run) (adj : Run → Run → Bool)

/-- One saturation step: add every run adjacent to the current set. -/
def growStep (S : Finset (Fin rs.length)) : Finset (Fin rs.length) :=
  S ∪ Finset.univ.filter (fun j => ∃ i ∈ S, adj (rs.get i) (rs.get j))

/-- Iterated saturation. -/
def grow : Nat → Finset (Fin rs.length) → Finset (Fin rs.length)
  | 0, S => S
  | k + 1, S => grow k (growStep rs adj S)

/-- The adjacency closure of a seed set: saturation for `rs.length` steps,
which is enough to reach a fixed point. -/
def closure (S : Finset (Fin rs.length)) : Finset (Fin rs.length) :=
  grow rs adj rs.length S

theorem subset_growStep (S : Finset (Fin rs.length)) : S ⊆ growStep rs adj S :=
  Finset.subset_union_left

theorem subset_grow (k : Nat) (S : Finset (Fin rs.length)) : S ⊆ grow rs adj k S := by
  induction k generalizing S with
  | zero => exact Finset.Subset.refl S
  | succ k ih => exact (subset_growStep rs adj S).trans (ih _)

theorem grow_of_growStep_eq {S : Finset (Fin rs.length)} (h : growStep rs adj S = S) :
    ∀ k, grow rs adj k S = S := by
  intro k
  induction k with
  | zero => rfl
  | succ k ih => simp only [grow, h, ih]

theorem grow_add (a b : Nat) (S : Finset (Fin rs.length)) :
    grow rs adj (a + b) S = grow rs adj b (grow rs adj a S) := by
  induction a generalizing S with
  | zero => simp [grow, Nat.zero_add]
  | succ a ih => simpa [grow, Nat.succ_add] using ih (growStep rs adj S)

theorem card_grow (k : Nat) (S : Finset (Fin rs.length)) :
    (∃ j ≤ k, growStep rs adj (grow rs adj j S) = grow rs adj j S) ∨
      S.card + k + 1 ≤ (grow rs adj (k + 1) S).card := by
  induction k with
  | zero =>
    by_cases h : growStep rs adj S = S
    · exact Or.inl ⟨0, le_refl 0, h⟩
    · right
      have hss : S ⊂ growStep rs adj S :=
        lt_of_le_of_ne (subset_growStep rs adj S) (fun he => h he.symm)
      have := Finset.card_lt_card hss
      simpa [grow] using this
  | succ k ih =>
    rcases ih with ⟨j, hj, hfix⟩ | hcard
    · exact Or.inl ⟨j, hj.trans (Nat.le_succ k), hfix⟩
    · by_cases h : growStep rs adj (grow rs adj (k + 1) S) = grow rs adj (k + 1) S
      · exact Or.inl ⟨k + 1, le_refl _, h⟩
      · right
        have hss : grow rs adj (k + 1) S ⊂ growStep rs adj (grow rs adj (k + 1) S) :=
          lt_of_le_of_ne (subset_growStep rs adj _) (fun he => h he.symm)
        have hlt := Finset.card_lt_card hss
        have : grow rs adj (k + 1 + 1) S = growStep rs adj (grow rs adj (k + 1) S) := by
          have := grow_add rs adj (k + 1) 1 S
          simpa [grow] using this
        rw [this]
        omega

theorem growStep_closure (S : Finset (Fin rs.length)) :
    growStep rs adj (closure rs adj S) = closure rs adj S := by
  rcases card_grow rs adj rs.length S with ⟨j, hj, hfix⟩ | hcard
  · have h1 : closure rs adj S = grow rs adj j S := by
      have h2 := grow_add rs adj j (rs.length - j) S
      rw [show j + (rs.length - j) = rs.length from by omega] at h2
      rw [closure, h2]
      exact grow_of_growStep_eq rs adj hfix _
    rw [h1, hfix]
  · exfalso
    have hle : (grow rs adj (rs.length + 1) S).card ≤ rs.length := by
      have := Finset.card_le_univ (grow rs adj (rs.length + 1) S)
      simpa using this
    omega

/-- Index-level reachability through the adjacency relation on the run list. -/
def ReachIdx (i j : Fin rs.length) : Prop :=
  Relation.ReflTransGen (fun a b => adj (rs.get a) (rs.get b) = true) i j

theorem reach_of_mem_grow (k : Nat) (S : Finset (Fin rs.length)) (j : Fin rs.length)
    (hj : j ∈ grow rs adj k S) : ∃ i ∈ S, ReachIdx rs adj i j := by
  induction k generalizing S with
  | zero => exact ⟨j, hj, Relation.ReflTransGen.refl⟩
  | succ k ih =>
    rcases ih (growStep rs adj S) hj with ⟨i, hi, hri⟩
    simp only [growStep, Finset.mem_union, Finset.mem_filter, Finset.mem_univ, true_and] at hi
    rcases hi with hi | ⟨i', hi', hadj⟩
    · exact ⟨i, hi, hri⟩
    · exact ⟨i', hi', Relation.ReflTransGen.head hadj hri⟩

theorem mem_closure_of_adj {S : Finset (Fin rs.length)} {i j : Fin rs.length}
    (hi : i ∈ closure rs adj S) (hadj : adj (rs.get i) (rs.get j) = true) :
    j ∈ closure rs adj S := by
  have : j ∈ growStep rs adj (closure rs adj S) := by
    simp only [growStep, Finset.mem_union, Finset.mem_filter, Finset.mem_univ, true_and]
    exact Or.inr ⟨i, hi, hadj⟩
  rwa [growStep_closure rs adj S] at this

theorem mem_closure_of_reach {S : Finset (Fin rs.length)} {i j : Fin rs.length}
    (hi : i ∈ S) (hr : ReachIdx rs adj i j) : j ∈ closure rs adj S := by
  induction hr with
  | refl => exact subset_grow rs adj _ S hi
  | tail _ hadj ih => exact mem_closure_of_adj rs adj ih hadj

/-- The closure of a single seed is exactly its reachability class. -/
theorem mem_closure_singleton_iff (i j : Fin rs.length) :
    j ∈ closure rs adj {i} ↔ ReachIdx rs adj i j := by
  constructor
  · intro hj
    rcases reach_of_mem_grow rs adj _ _ _ hj with ⟨i', hi', hr⟩
    rcases Finset.mem_singleton.1 hi' with rfl
    exact hr
  · exact mem_closure_of_reach rs adj (Finset.mem_singleton_self i)

end Closure

/-- The 8-connected component (as a set of run indices) containing run `i`. -/
def componentFinset (rs : List Run) (adj : Run → Run → Bool) (i : Fin rs.length) :
    Finset (Fin rs.length) :=
  closure rs adj {i}

/-- All components of the run list, each listed once, ordered by their first run. -/
def componentsList (rs : List Run) (adj : Run → Run → Bool) : List (Finset (Fin rs.length)) :=
  ((List.finRange rs.length).map (componentFinset rs adj)).dedup

/-- The runs of a component, in index order. -/
def compRuns (rs : List Run) (S : Finset (Fin rs.length)) : List Run :=
  ((List.finRange rs.length).filter (fun i => i ∈ S)).map rs.get

/-- Width of a mask (maximum row length; rows of an actual image all share it). -/
def imgWidth (m : Image Bool) : Nat := (m.map List.length).foldr max 0

/-- The mask surrounded by a one-pixel background frame, so that the image
border touches a single well-defined outer background region. -/
def padMask (m : Image Bool) : Image Bool :=
  let w := imgWidth m
  (List.replicate (w + 2) false) ::
    (m.map (fun row => false :: (row ++ List.replicate (w + 1 - row.length) false)) ++
      [List.replicate (w + 2) false])

/-- Background runs of the padded mask (4-connectivity applies to them). -/
def bgRuns (m : Image Bool) : List Run :=
  maskRuns ((padMask m).map (fun row => row.map (fun b => !b)))

/-- The background runs 4-connected to the frame (row 0 of the padded mask):
the outer background region. -/
def outerBg (m : Image Bool) : Finset (Fin (bgRuns m).length) :=
  closure (bgRuns m) adj4 (Finset.univ.filter (fun i => ((bgRuns m).get i).row = 0))

/-- A run of the original mask, re-expressed in padded coordinates. -/
def padRun (r : Run) : Run := ⟨r.row + 1, r.lo + 1, r.hi + 1⟩

/-- A foreground component is outer (has a top-level outer contour in the
`cv2.RETR_EXTERNAL` sense) iff one of its runs touches the outer background. -/
def isOuterComp (m : Image Bool) (rs : List Run) (S : Finset (Fin rs.length)) : Bool :=
  decide (∃ i ∈ S, ∃ b ∈ outerBg m, adj4 (padRun (rs.get i)) ((bgRuns m).get b) = true)

/-- Model of `cv2.findContours(mask, cv2.RETR_EXTERNAL, cv2.CHAIN_APPROX_SIMPLE)`:
the outer 8-connected foreground components of the mask, each represented by
its run set (the information content of its outer contour). -/
def findContoursExt (m : Image Bool) : List (List Run) :=
  let rs := maskRuns m
  ((componentsList rs adj8).filter (fun S => isOuterComp m rs S)).map (compRuns rs)

theorem reachIdx_symm (rs : List Run) (adj : Run → Run → Bool)
    (hsym : ∀ a b, adj a b = adj b a) {i j : Fin rs.length}
    (h : ReachIdx rs adj i j) : ReachIdx rs adj j i := by
  induction h with
  | refl => exact Relation.ReflTransGen.refl
  | tail _ hadj ih => exact Relation.ReflTransGen.head (by rw [hsym]; exact hadj) ih

theorem reachIdx_zero_of_consec (rs : List Run) (adj : Run → Run → Bool) :
    ∀ (mv : Nat) (hm : mv < rs.length)
      (_ : ∀ k (hk : k < mv), adj (rs.get ⟨k, by omega⟩) (rs.get ⟨k + 1, by omega⟩) = true),
      ReachIdx rs adj ⟨0, by omega⟩ ⟨mv, hm⟩ := by
  intro mv
  induction mv with
  | zero => intro hm _; exact Relation.ReflTransGen.refl
  | succ mv ih =>
    intro hm h
    exact Relation.ReflTransGen.tail
      (ih (by omega) (fun k hk => h k (by omega))) (h mv (by omega))

theorem reachIdx_all_of_consec (rs : List Run) (adj : Run → Run → Bool)
    (hsym : ∀ a b, adj a b = adj b a)
    (h : ∀ k (hk : k + 1 < rs.length),
      adj (rs.get ⟨k, by omega⟩) (rs.get ⟨k + 1, by omega⟩) = true)
    (i j : Fin rs.length) : ReachIdx rs adj i j := by
  have h0i : ReachIdx rs adj ⟨0, i.pos⟩ ⟨i.val, i.isLt⟩ :=
    reachIdx_zero_of_consec rs adj i.val i.isLt (fun k hk => h k (by omega))
  have h0j : ReachIdx rs adj ⟨0, i.pos⟩ ⟨j.val, j.isLt⟩ :=
    reachIdx_zero_of_consec rs adj j.val j.isLt (fun k hk => h k (by omega))
  exact Relation.ReflTransGen.trans (reachIdx_symm rs adj hsym h0i) h0j

theorem adj8_symm (a b : Run) : adj8 a b = adj8 b a := by
  rw [Bool.eq_iff_iff]
  simp only [adj8, Bool.and_eq_true, Bool.or_eq_true, beq_iff_eq, decide_eq_true_eq]
  omega

theorem adj4_symm (a b : Run) : adj4 a b = adj4 b a := by
  rw [Bool.eq_iff_iff]
  simp only [adj4, Bool.and_eq_true, Bool.or_eq_true, beq_iff_eq, decide_eq_true_eq]
  omega

/-- Executable check that consecutive elements of a run list are adjacent. -/
def consecB (adj : Run → Run → Bool) : List Run → Bool
  | [] => true
  | [_] => true
  | a :: b :: t => adj a b && consecB adj (b :: t)

theorem consecB_get (adj : Run → Run → Bool) : ∀ (rs : List Run), consecB adj rs = true →
    ∀ k (hk : k + 1 < rs.length), adj (rs.get ⟨k, by omega⟩) (rs.get ⟨k + 1, hk⟩) = true := by
  intro rs
  induction rs with
  | nil => intro _ k hk; simp at hk
  | cons a t ih =>
    intro h k hk
    cases t with
    | nil => simp at hk
    | cons b t' =>
      have h' := (Bool.and_eq_true _ _).mp h
      cases k with
      | zero => exact h'.1
      | succ k => exact ih h'.2 k (by simpa using hk)

/-- Transfer a decidable `consecB` fact on a prefix of the run list to
index-level consecutive adjacency in the whole list. -/
theorem consecB_take_get (adj : Run → Run → Bool) (rs : List Run) (m : Nat)
    (h : consecB adj (rs.take m) = true) :
    ∀ k, k + 1 < m → ∀ (hk : k + 1 < rs.length),
      adj (rs.get ⟨k, by omega⟩) (rs.get ⟨k + 1, hk⟩) = true := by
  intro k hkm hk
  have hg := consecB_get adj (rs.take m) h k (by rw [List.length_take]; omega)
  simpa [List.get_eq_getElem, List.getElem_take] using hg

/-- Total run access (used to state decidable facts without bound proofs). -/
def runAt (rs : List Run) (k : Nat) : Run := rs.getD k ⟨0, 0, 0⟩

theorem get_eq_runAt (rs : List Run) (k : Nat) (h : k < rs.length) :
    rs.get ⟨k, h⟩ = runAt rs k := by
  rw [runAt, List.getD_eq_getElem _ _ h, List.get_eq_getElem]

theorem componentFinset_eq_univ (rs : List Run) (adj : Run → Run → Bool)
    (hcon : ∀ i j : Fin rs.length, ReachIdx rs adj i j) (i : Fin rs.length) :
    componentFinset rs adj i = Finset.univ := by
  apply Finset.eq_univ_of_forall
  intro j
  exact (mem_closure_singleton_iff rs adj i j).2 (hcon i j)

theorem dedup_replicate {α : Type} [DecidableEq α] (a : α) :
    ∀ n, (List.replicate (n + 1) a).dedup = [a] := by
  intro n
  induction n with
  | zero => rfl
  | succ n ih =>
    rw [List.replicate_succ, List.dedup_cons_of_mem (by simp [List.mem_replicate]), ih]

/-- If all runs are mutually reachable, there is exactly one component. -/
theorem componentsList_eq_univ (rs : List Run) (adj : Run → Run → Bool) (hne : rs ≠ [])
    (hcon : ∀ i j : Fin rs.length, ReachIdx rs adj i j) :
    componentsList rs adj = [Finset.univ] := by
  unfold componentsList
  have hmap : (List.finRange rs.length).map (componentFinset rs adj) =
      List.replicate rs.length (Finset.univ : Finset (Fin rs.length)) := by
    rw [List.eq_replicate_iff]
    constructor
    · simp
    · intro b hb
      rcases List.mem_map.1 hb with ⟨i, _, rfl⟩
      exact componentFinset_eq_univ rs adj hcon i
  rw [hmap]
  obtain ⟨n, hn⟩ : ∃ n, rs.length = n + 1 := by
    cases rs with
    | nil => exact absurd rfl hne
    | cons a l => exact ⟨l.length, rfl⟩
  rw [hn]
  exact dedup_replicate _ n

theorem compRuns_univ (rs : List Run) : compRuns rs Finset.univ = rs := by
  unfold compRuns
  rw [List.filter_eq_self.2 (by simp)]
  exact List.finRange_map_get rs

/-- The eight neighbour directions as `(dx, dy)` offsets in clockwise order
starting east, in image coordinates (`x` to the right, `y` downwards): this is
the chain-code order used by the border following of `cv2.findContours`. -/
def dirList : List (Int × Int) :=
  [(1, 0), (1, 1), (0, 1), (-1, 1), (-1, 0), (-1, -1), (0, -1), (1, -1)]

/-- Direction number `k` (taken modulo 8) as an offset. -/
def dirAt (k : Nat) : Int × Int := dirList.getD (k % 8) (1, 0)

/-- The neighbour of `p` in direction `k`. -/
def addDir (p : Int × Int) (k : Nat) : Int × Int :=
  (p.1 + (dirAt k).1, p.2 + (dirAt k).2)

/-- Direction number of a neighbour offset. -/
def dirIndexOf (v : Int × Int) : Nat :=
  match dirList.findIdx? (fun d => d == v) with
  | some k => k
  | none => 0

/-- Pixel membership test for a run-length contour, on integer coordinates
`(x, y)` so that neighbours of border pixels may lie outside the image. -/
def inRuns (C : List Run) (p : Int × Int) : Bool :=
  C.any (fun r => (r.row : Int) == p.2 && ((r.lo : Int) ≤ p.1 && p.1 ≤ (r.hi : Int)))

/-- One step of the Suzuki-Abe border following used by `cv2.findContours`
(step 3.3 of the algorithm): around the current border pixel `i3`, scan the
eight neighbours counterclockwise starting right after the previous pixel `i2`
and return the first contour pixel found. Since `i2` itself is a contour pixel
the scan always succeeds; the `none` fallback is unreachable. -/
def suzukiStep (C : List Run) (i3 i2 : Int × Int) : Int × Int :=
  let j := dirIndexOf (i2.1 - i3.1, i2.2 - i3.2)
  match (List.range 8).find? (fun t => inRuns C (addDir i3 (j + (7 - t)))) with
  | some t => addDir i3 (j + (7 - t))
  | none => i2

/-- Iterate `suzukiStep` and collect the visited border pixels, stopping with
the Suzuki-Abe termination test: the border is complete when the next pixel is
the starting pixel and the current pixel is `i1`, the first border pixel found
from the start (step 3.5). The fuel only bounds the border length: there are
at most eight states per contour pixel and the follower never repeats a state
before the termination test fires. -/
def suzukiTraceAux (C : List Run) (start i1 : Int × Int) :
    Nat → (Int × Int) → (Int × Int) → List (Int × Int) → List (Int × Int)
  | 0, _, _, acc => acc.reverse
  | fuel + 1, i3, i2, acc =>
    let i4 := suzukiStep C i3 i2
    if i4 = start ∧ i3 = i1 then acc.reverse
    else suzukiTraceAux C start i1 fuel i4 i3 (i4 :: acc)

/-- Total number of pixels of a run-length contour. -/
def runPixels (C : List Run) : Nat :=
  C.foldr (fun r acc => r.hi + 1 - r.lo + acc) 0

/-- The closed outer-border polygon of a component, as traced by
`cv2.findContours`: starting from the topmost-leftmost pixel (whose west
neighbour is background, as required by the algorithm), the first neighbour
`i1` is found by a clockwise scan from the west (step 3.1; if there is none
the contour is the single start pixel), and the border is then followed with
`suzukiStep`. The vertices are pixel centres; `CHAIN_APPROX_SIMPLE` only
drops collinear intermediate vertices, which leaves the polygon, and hence
its area, unchanged. -/
def contourTrace (C : List Run) : List (Int × Int) :=
  match C with
  | [] => []
  | q :: qs =>
    let sy := (qs.map Run.row).foldr min q.row
    match C.filter (fun r => r.row == sy) with
    | [] => []
    | r0 :: rs =>
      let sx := (rs.map Run.lo).foldr min r0.lo
      let start : Int × Int := ((sx : Int), (sy : Int))
      match (List.range 8).find? (fun t => inRuns C (addDir start (5 + t))) with
      | none => [start]
      | some t =>
        let i1 := addDir start (5 + t)
        start :: suzukiTraceAux C start i1 (8 * runPixels C + 8) start i1 []

/-- Summand list of the shoelace formula: cross products of consecutive
vertices, closing the cycle back to `p0`. -/
def shoelaceAux (p0 : Int × Int) : List (Int × Int) → Int
  | [] => 0
  | [p] => p.1 * p0.2 - p0.1 * p.2
  | p :: q :: t => (p.1 * q.2 - q.1 * p.2) + shoelaceAux p0 (q :: t)

/-- Twice the signed area of a closed polygon, by the Green (shoelace)
formula. -/
def shoelace : List (Int × Int) → Int
  | [] => 0
  | p0 :: rest => shoelaceAux p0 (p0 :: rest)

/-- Model of `cv2.contourArea`, kept integral by working in half-pixel units:
the absolute value of the Green-formula (shoelace) sum over the traced
outer-border polygon of pixel centres, which is exactly twice the value
`cv2.contourArea` returns (a one-pixel-wide line gives 0 where it has 0.0, a
3x3 block gives 8 where it has 4.0, a solid `w` by `h` rectangle gives
`2*(w-1)*(h-1)`). Doubling every key preserves all comparisons, both strict
and tied, so `max(contours, key=cv2.contourArea)` at line 58 selects exactly
the same contour under this measure. -/
def contourArea (C : List Run) : Nat := (shoelace (contourTrace C)).natAbs

/-- A single pixel and a 1x10 one-pixel-wide line both trace to a degenerate
polygon of area 0, matching `cv2.contourArea` (0.0), although they contain 1
and 10 pixels. -/
theorem contourArea_degenerate :
    contourArea [⟨0, 0, 0⟩] = 0 ∧ contourArea [⟨0, 0, 9⟩] = 0 := by decide

/-- A 3x3 block traces to the square through its eight border-pixel centres,
of area 4: `cv2.contourArea` gives 4.0 and the model gives twice that. -/
theorem contourArea_block3 :
    contourArea [⟨0, 0, 2⟩, ⟨1, 0, 2⟩, ⟨2, 0, 2⟩] = 8 := by decide

/-- A plus-shaped component traces to the diamond through its four extreme
pixel centres, of area 2: `cv2.contourArea` gives 2.0, the model twice that. -/
theorem contourArea_plus :
    contourArea [⟨0, 1, 1⟩, ⟨1, 0, 2⟩, ⟨2, 1, 1⟩] = 4 := by decide

/-- The model ranks a 3x3 block (area 4.0) above a 1x10 line (area 0.0), as
`cv2.contourArea` does, even though the line has more pixels. -/
theorem contourArea_line_lt_block3 :
    contourArea [⟨0, 0, 9⟩] < contourArea [⟨2, 0, 2⟩, ⟨3, 0, 2⟩, ⟨4, 0, 2⟩] := by decide

/-- Model of `cv2.boundingRect`: the minimal axis-aligned `(x, y, w, h)`
rectangle containing the contour. -/
def boundingRect (C : List Run) : Nat × Nat × Nat × Nat :=
  match C with
  | [] => (0, 0, 0, 0)
  | q :: qs =>
    let x := (qs.map Run.lo).foldr min q.lo
    let y := (qs.map Run.row).foldr min q.row
    let xe := (qs.map Run.hi).foldr max q.hi
    let ye := (qs.map Run.row).foldr max q.row
    (x, y, xe + 1 - x, ye + 1 - y)

/-- Python's `max(best :: xs, key=f)`: the first element attaining the maximal
key (a later element replaces the current best only on a strictly larger key). -/
def pyMax {α : Type} (f : α → Nat) : α → List α → α
  | best, [] => best
  | best, x :: xs => if f best < f x then pyMax f x xs else pyMax f best xs

theorem pyMax_mem {α : Type} (f : α → Nat) (b : α) (xs : List α) :
    pyMax f b xs = b ∨ pyMax f b xs ∈ xs := by
  induction xs generalizing b with
  | nil => exact Or.inl rfl
  | cons x xs ih =>
    simp only [pyMax]
    by_cases h : f b < f x
    · simp only [if_pos h]
      rcases ih x with h1 | h1
      · exact Or.inr (by simp [h1])
      · exact Or.inr (List.mem_cons_of_mem _ h1)
    · simp only [if_neg h]
      rcases ih b with h1 | h1
      · exact Or.inl h1
      · exact Or.inr (List.mem_cons_of_mem _ h1)

theorem le_pyMax {α : Type} (f : α → Nat) (b : α) (xs : List α) :
    f b ≤ f (pyMax f b xs) ∧ ∀ x ∈ xs, f x ≤ f (pyMax f b xs) := by
  induction xs generalizing b with
  | nil => exact ⟨le_refl _, by simp⟩
  | cons x xs ih =>
    simp only [pyMax]
    by_cases h : f b < f x
    · simp only [if_pos h]
      refine ⟨le_of_lt (lt_of_lt_of_le h (ih x).1), ?_⟩
      intro y hy
      rcases List.mem_cons.1 hy with rfl | hy
      · exact (ih y).1
      · exact (ih x).2 y hy
    · simp only [if_neg h]
      refine ⟨(ih b).1, ?_⟩
      intro y hy
      rcases List.mem_cons.1 hy with rfl | hy
      · exact le_trans (le_of_not_lt h) (ih b).1
      · exact (ih b).2 y hy

/-- Python's `int()` applied to a (real-valued) number: truncation toward zero. -/
def pyInt (q : ℚ) : Int := if 0 ≤ q then ⌊q⌋ else ⌈q⌉

theorem pyInt_eq_floor {q : ℚ} (h : 0 ≤ q) : pyInt q = ⌊q⌋ := if_pos h

/-- Serialization of one pixel row, channel by channel. -/
def pngEncodeRow : List RGB → List Nat
  | [] => []
  | p :: ps => p.1 :: p.2.1 :: p.2.2 :: pngEncodeRow ps

/-- Serialization of the rows, each prefixed by its pixel count. -/
def pngEncodeRows : List (List RGB) → List Nat
  | [] => []
  | row :: rows => row.length :: (pngEncodeRow row ++ pngEncodeRows rows)

/-- Model of the PNG encoding produced by `img.save(path, 'png', ...)`. PNG is
a lossless format, so the encoding determines the pixel data exactly; the
model is the canonical such code (row count, then length-prefixed rows). -/
def pngEncode (img : Image RGB) : List Nat := img.length :: pngEncodeRows img

/-- Decoder for one row of `k` pixels; returns the remaining bytes. -/
def pngDecodeRow : Nat → List Nat → Option (List RGB × List Nat)
  | 0, bs => some ([], bs)
  | k + 1, r :: g :: b :: bs => (pngDecodeRow k bs).map (fun p => ((r, g, b) :: p.1, p.2))
  | _ + 1, [] => none
  | _ + 1, [_] => none
  | _ + 1, [_, _] => none

/-- Decoder for `n` length-prefixed rows. -/
def pngDecodeRows : Nat → List Nat → Option (List (List RGB) × List Nat)
  | 0, bs => some ([], bs)
  | n + 1, k :: bs =>
    (pngDecodeRow k bs).bind (fun p => (pngDecodeRows n p.2).map (fun q => (p.1 :: q.1, q.2)))
  | _ + 1, [] => none

/-- Model of decoding (re-reading) a PNG file. -/
def pngDecode (bs : List Nat) : Option (Image RGB) :=
  match bs with
  | n :: rest => (pngDecodeRows n rest).bind (fun p => if p.2 = [] then some p.1 else none)
  | [] => none

theorem pngDecodeRow_encode (row : List RGB) (t : List Nat) :
    pngDecodeRow row.length (pngEncodeRow row ++ t) = some (row, t) := by
  induction row with
  | nil => rfl
  | cons p ps ih =>
    obtain ⟨r, g, b⟩ := p
    simp [pngEncodeRow, pngDecodeRow, ih]

theorem pngDecodeRows_encode (img : List (List RGB)) (t : List Nat) :
    pngDecodeRows img.length (pngEncodeRows img ++ t) = some (img, t) := by
  induction img with
  | nil => rfl
  | cons row rows ih =>
    simp [pngEncodeRows, pngDecodeRows, List.append_assoc, pngDecodeRow_encode, ih]

/-- The modelled PNG encoding is lossless: decoding recovers the pixel data. -/
theorem pngDecode_encode (img : Image RGB) : pngDecode (pngEncode img) = some img := by
  have h := pngDecodeRows_encode img []
  simp only [List.append_nil] at h
  simp [pngEncode, pngDecode, h]

/-- The Pyramid Source collaborator (`openslide.OpenSlide`). `read_region`
takes an origin in base-level coordinates, a level index and a size in that
level's pixels, and may fail with an I/O error. `hScale` is the library's
documented invariant that downsample factors are at least `1.0`. -/
structure Slide where
  level_count : Nat
  level_dimensions : List (Nat × Nat)
  level_downsamples : List ℚ
  read_region : (Int × Int) → Nat → (Int × Int) → Except String (Image RGBA)
  hScale : ∀ q ∈ level_downsamples, 1 ≤ q

/-- The ambient effects of the Python function: opening a slide by path,
reading the wall clock (`time.time()`, one reading per call, in call order),
and persisting a file (`PIL`'s `img.save`, which may fail). The PNG writer
ignores the `quality` keyword, so `save` does not receive it. -/
structure Env where
  openSlide : String → Except String Slide
  clock : Nat → ℚ
  save : String → Image RGB → Except String Unit

/-- Observable events of one run: `tqdm` progress signalling, `time.sleep`,
`read_region` requests, writes into `timing_info`, and output-file activity. -/
inductive Ev where
  | newBar (bar : Nat) (desc : String) (total : Nat)
  | setDesc (bar : Nat) (desc : String)
  | update (bar : Nat) (n : Nat)
  | closeBar (bar : Nat)
  | sleep (dt : ℚ)
  | readRegion (origin : Int × Int) (level : Nat) (size : Int × Int)
  | timingSet (key : String) (v : ℚ)
  | saveAttempt (path : String) (fmt : String) (quality : Nat)
  | fileWritten (path : String) (bytes : List Nat)
deriving DecidableEq, Repr

/-- Mutable state threaded through the run: the next clock reading index,
the event trace so far, and the `timing_info` dictionary. -/
structure St where
  tick : Nat
  evs : List Ev
  timing : List (String × ℚ)

/-- Append an event to the trace. -/
def emit (st : St) (e : Ev) : St := { st with evs := st.evs ++ [e] }

/-- Model of `time.time()`: the next clock reading. -/
def now (env : Env) (st : St) : ℚ × St :=
  (env.clock st.tick, { st with tick := st.tick + 1 })

/-- Assignment to an existing key of the `timing_info` dictionary. -/
def setKey (t : List (String × ℚ)) (k : String) (v : ℚ) : List (String × ℚ) :=
  t.map (fun p => if p.1 = k then (k, v) else p)

/-- The assignment `timing_info[k] = v`, also recorded in the event trace. -/
def tset (st : St) (k : String) (v : ℚ) : St :=
  { st with timing := setKey st.timing k v, evs := st.evs ++ [Ev.timingSet k v] }

/-- Dictionary lookup (first matching key). -/
def tGet (t : List (String × ℚ)) (k : String) : ℚ :=
  match t.find? (fun p => p.1 == k) with
  | some p => p.2
  | none => 0

/-- The `timing_info` initializer of `main.py` lines 25-32. -/
def timingInit : List (String × ℚ) :=
  [("total", 0), ("detection", 0), ("coordinate_calc", 0), ("image_reading", 0),
    ("processing", 0), ("saving", 0)]

/-- The value `low_res_level = slide.level_count - 1` (line 44). -/
def coarseLevel (s : Slide) : Nat := s.level_count - 1

/-- The value `slide.level_dimensions[low_res_level]` (line 45). -/
def coarseDims (s : Slide) : Nat × Nat := s.level_dimensions.getD (coarseLevel s) (0, 0)

/-- The value `slide.level_downsamples[low_res_level]` (line 65). -/
def coarseScale (s : Slide) : ℚ := s.level_downsamples.getD (coarseLevel s) 1

theorem one_le_coarseScale (s : Slide) : 1 ≤ coarseScale s := by
  unfold coarseScale
  rcases Nat.lt_or_ge (coarseLevel s) s.level_downsamples.length with h | h
  · rw [List.getD_eq_getElem _ _ h]
    exact s.hScale _ (List.getElem_mem h)
  · rw [List.getD_eq_default _ _ h]

/-- The result triple `(success, message, timing_info)`. -/
abbrev Res := Bool × String × List (String × ℚ)

/-- The chunked-read simulation loop (lines 79-84): for each `i`,
`time.sleep(0.2)`, `read_progress.update(10)`, and at `i == 5` the single
real `read_region` call, whose failure aborts the run. -/
def simLoop (s : Slide) (origin : Int × Int) (size : Int × Int) :
    List Nat → Option (Image RGBA) → St → Except (String × St) (Option (Image RGBA) × St)
  | [], img, st => .ok (img, st)
  | i :: rest, img, st =>
    let st := emit st (.sleep (1 / 5))
    let st := emit st (.update 1 10)
    if i = 5 then
      let st := emit st (.readRegion origin 0 size)
      match s.read_region origin 0 size with
      | .error e => .error (e, st)
      | .ok im => simLoop s origin size rest (some im) st
    else simLoop s origin size rest img st

/-- Step 5 (lines 95-105): save as PNG — the format argument is the constant
`'png'` whatever `output_path` is — then record `saving` and `total` and
return the success triple reporting `w_high x h_high`. -/
def savingOn (env : Env) (out : String) (q : Nat) (t0 : ℚ) (img : Image RGB)
    (wh hh : Int) (st : St) : Except (String × St) (Res × St) :=
  let st := emit st (.setDesc 0 ("Saving image"))
  let p1 := now env st
  let st := emit p1.2 (.saveAttempt out ("png") q)
  match env.save out img with
  | .error e => .error (e, st)
  | .ok _ =>
    let st := emit st (.fileWritten out (pngEncode img))
    let p2 := now env st
    let st := tset p2.2 ("saving") (p2.1 - p1.1)
    let st := emit st (.update 0 10)
    let st := emit st (.setDesc 0 ("Conversion complete"))
    let st := emit st (.closeBar 0)
    let p3 := now env st
    let st := tset p3.2 ("total") (p3.1 - t0)
    .ok ((true,
      ("Successfully saved " ++ toString wh ++ "x" ++ toString hh ++
        " cropped image (original size)"), st.timing), st)

/-- Step 4 (lines 89-94): `img.convert('RGB')` and the `processing` timing. -/
def processingOn (env : Env) (out : String) (q : Nat) (t0 : ℚ) (raw : Image RGBA)
    (wh hh : Int) (st : St) : Except (String × St) (Res × St) :=
  let st := emit st (.setDesc 0 ("Processing image"))
  let p1 := now env st
  let img := toRGB raw
  let p2 := now env p1.2
  let st := tset p2.2 ("processing") (p2.1 - p1.1)
  let st := emit st (.update 0 20)
  savingOn env out q t0 img wh hh st

/-- Step 3 (lines 73-87): the staged full-resolution read at level 0. -/
def stagingOn (env : Env) (s : Slide) (out : String) (q : Nat) (t0 : ℚ)
    (xh yh wh hh : Int) (st : St) : Except (String × St) (Res × St) :=
  let st := emit st (.setDesc 0 ("Reading image data"))
  let p1 := now env st
  let st := emit p1.2 (.newBar 1 ("Reading") 100)
  match simLoop s (xh, yh) (wh, hh) (List.range 10) none st with
  | .error es => .error es
  | .ok (imgOpt, st) =>
    let st := emit st (.closeBar 1)
    let p2 := now env st
    let st := tset p2.2 ("image_reading") (p2.1 - p1.1)
    let st := emit st (.update 0 30)
    match imgOpt with
    | none => .error (("NoneType object has no attribute convert"), st)
    | some raw => processingOn env out q t0 raw wh hh st

/-- Step 2 (lines 62-71): scale the bounding box by the coarsest level's
downsample factor, truncating with `int()`, and record `coordinate_calc`. -/
def mappingOn (env : Env) (s : Slide) (out : String) (q : Nat) (t0 : ℚ)
    (bb : Nat × Nat × Nat × Nat) (st : St) : Except (String × St) (Res × St) :=
  let st := emit st (.setDesc 0 ("Calculating coordinates"))
  let p1 := now env st
  let scale := coarseScale s
  let xh := pyInt ((bb.1 : ℚ) * scale)
  let yh := pyInt ((bb.2.1 : ℚ) * scale)
  let wh := pyInt ((bb.2.2.1 : ℚ) * scale)
  let hh := pyInt ((bb.2.2.2 : ℚ) * scale)
  let p2 := now env p1.2
  let st := tset p2.2 ("coordinate_calc") (p2.1 - p1.1)
  let st := emit st (.update 0 15)
  stagingOn env s out q t0 xh yh wh hh st

/-- The body of the `with OpenSlide(...)` block (lines 36-105), starting with
step 1: read the coarsest level, threshold at 10, find outer contours; with
no contour, return the failure triple early (without touching `total`);
otherwise take the largest contour's bounding box and continue. -/
def pipelineBody (env : Env) (s : Slide) (out : String) (q : Nat) (t0 : ℚ)
    (st : St) : Except (String × St) (Res × St) :=
  let st := emit st (.newBar 0 ("Overall Progress") 100)
  let st := emit st (.setDesc 0 ("Detecting image region"))
  let p1 := now env st
  let st := emit p1.2
    (.readRegion (0, 0) (coarseLevel s) (((coarseDims s).1 : Int), ((coarseDims s).2 : Int)))
  match s.read_region (0, 0) (coarseLevel s) (((coarseDims s).1 : Int), ((coarseDims s).2 : Int)) with
  | .error e => .error (e, st)
  | .ok raw =>
    let low := toRGB raw
    let p2 := now env st
    let st := tset p2.2 ("detection") (p2.1 - p1.1)
    let st := emit st (.update 0 10)
    let gray := cvtColorGray low
    let thresh := cvThreshold10 gray
    match findContoursExt thresh with
    | [] =>
      let st := emit st (.closeBar 0)
      .ok ((false, ("Error: No object detected"), st.timing), st)
    | c :: cs =>
      let bb := boundingRect (pyMax contourArea c cs)
      let st := emit st (.update 0 15)
      mappingOn env s out q t0 bb st

/-- The entry point `safe_convert_mrxs_to_jpg_with_crop(input_path,
output_path, quality=80)`: record the start time, run the pipeline, and
convert any raised error into the `(False, "Error: ...", timing_info)`
triple (lines 107-109). Returns the result triple and the event trace. -/
def safe_convert_mrxs_to_jpg_with_crop (env : Env) (input_path output_path : String)
    (quality : Nat) : Res × List Ev :=
  let st0 : St := ⟨0, [], timingInit⟩
  let p0 := now env st0
  match env.openSlide input_path with
  | .error e =>
    let p1 := now env p0.2
    let st := tset p1.2 ("total") (p1.1 - p0.1)
    ((false, ("Error: ") ++ e, st.timing), st.evs)
  | .ok s =>
    match pipelineBody env s output_path quality p0.1 p0.2 with
    | .ok (res, st) => (res, st.evs)
    | .error (e, st) =>
      let p1 := now env st
      let st := tset p1.2 ("total") (p1.1 - p0.1)
      ((false, ("Error: ") ++ e, st.timing), st.evs)

/-! ### Path lemmas: the explicit effect of each stage of the run -/

/-- The event trace of a completed staging loop: ten sleep/checkpoint pairs
with the single read issued during the sixth iteration. -/
def loopTrace (origin size : Int × Int) : List Ev :=
  [.sleep (1 / 5), .update 1 10, .sleep (1 / 5), .update 1 10, .sleep (1 / 5), .update 1 10,
    .sleep (1 / 5), .update 1 10, .sleep (1 / 5), .update 1 10, .sleep (1 / 5), .update 1 10,
    .readRegion origin 0 size,
    .sleep (1 / 5), .update 1 10, .sleep (1 / 5), .update 1 10, .sleep (1 / 5), .update 1 10,
    .sleep (1 / 5), .update 1 10]

/-- The event trace of a staging loop aborted by a failing read. -/
def loopTraceErr (origin size : Int × Int) : List Ev :=
  [.sleep (1 / 5), .update 1 10, .sleep (1 / 5), .update 1 10, .sleep (1 / 5), .update 1 10,
    .sleep (1 / 5), .update 1 10, .sleep (1 / 5), .update 1 10, .sleep (1 / 5), .update 1 10,
    .readRegion origin 0 size]

theorem simLoop_ok (s : Slide) (origin size : Int × Int) (st : St) (raw : Image RGBA)
    (h : s.read_region origin 0 size = .ok raw) :
    simLoop s origin size (List.range 10) none st =
      .ok (some raw, ⟨st.tick, st.evs ++ loopTrace origin size, st.timing⟩) := by
  rw [(by rfl : List.range 10 = [0, 1, 2, 3, 4, 5, 6, 7, 8, 9])]
  simp [simLoop, emit, h, loopTrace, List.append_assoc]

theorem simLoop_err (s : Slide) (origin size : Int × Int) (st : St) (e : String)
    (h : s.read_region origin 0 size = .error e) :
    simLoop s origin size (List.range 10) none st =
      .error (e, ⟨st.tick, st.evs ++ loopTraceErr origin size, st.timing⟩) := by
  rw [(by rfl : List.range 10 = [0, 1, 2, 3, 4, 5, 6, 7, 8, 9])]
  simp [simLoop, emit, h, loopTraceErr, List.append_assoc]

theorem savingOn_ok (env : Env) (out : String) (q : Nat) (t0 : ℚ) (img : Image RGB)
    (wh hh : Int) (st : St) (hSave : env.save out img = .ok ()) :
    savingOn env out q t0 img wh hh st =
      .ok ((true,
        ("Successfully saved " ++ toString wh ++ "x" ++ toString hh ++
          " cropped image (original size)"),
        setKey (setKey st.timing ("saving") (env.clock (st.tick + 1) - env.clock st.tick))
          ("total") (env.clock (st.tick + 2) - t0)),
      ⟨st.tick + 3,
        st.evs ++ [.setDesc 0 ("Saving image"), .saveAttempt out ("png") q,
          .fileWritten out (pngEncode img),
          .timingSet ("saving") (env.clock (st.tick + 1) - env.clock st.tick), .update 0 10,
          .setDesc 0 ("Conversion complete"), .closeBar 0,
          .timingSet ("total") (env.clock (st.tick + 2) - t0)],
        setKey (setKey st.timing ("saving") (env.clock (st.tick + 1) - env.clock st.tick))
          ("total") (env.clock (st.tick + 2) - t0)⟩) := by
  simp [savingOn, emit, now, tset, hSave, List.append_assoc]

theorem savingOn_err (env : Env) (out : String) (q : Nat) (t0 : ℚ) (img : Image RGB)
    (wh hh : Int) (st : St) (e : String) (hSave : env.save out img = .error e) :
    savingOn env out q t0 img wh hh st =
      .error (e, ⟨st.tick + 1,
        st.evs ++ [.setDesc 0 ("Saving image"), .saveAttempt out ("png") q], st.timing⟩) := by
  simp [savingOn, emit, now, tset, hSave, List.append_assoc]

theorem processingOn_eq (env : Env) (out : String) (q : Nat) (t0 : ℚ) (raw : Image RGBA)
    (wh hh : Int) (st : St) :
    processingOn env out q t0 raw wh hh st =
      savingOn env out q t0 (toRGB raw) wh hh
        ⟨st.tick + 2,
          st.evs ++ [.setDesc 0 ("Processing image"),
            .timingSet ("processing") (env.clock (st.tick + 1) - env.clock st.tick),
            .update 0 20],
          setKey st.timing ("processing") (env.clock (st.tick + 1) - env.clock st.tick)⟩ := by
  simp [processingOn, emit, now, tset, List.append_assoc]

theorem stagingOn_ok (env : Env) (s : Slide) (out : String) (q : Nat) (t0 : ℚ)
    (xh yh wh hh : Int) (st : St) (raw : Image RGBA)
    (hRead : s.read_region (xh, yh) 0 (wh, hh) = .ok raw) :
    stagingOn env s out q t0 xh yh wh hh st =
      processingOn env out q t0 raw wh hh
        ⟨st.tick + 2,
          st.evs ++ [.setDesc 0 ("Reading image data"), .newBar 1 ("Reading") 100] ++
            loopTrace (xh, yh) (wh, hh) ++
            [.closeBar 1,
              .timingSet ("image_reading") (env.clock (st.tick + 1) - env.clock st.tick),
              .update 0 30],
          setKey st.timing ("image_reading") (env.clock (st.tick + 1) - env.clock st.tick)⟩ := by
  simp only [stagingOn]
  rw [simLoop_ok _ _ _ _ _ hRead]
  simp [emit, now, tset, List.append_assoc]

theorem stagingOn_err (env : Env) (s : Slide) (out : String) (q : Nat) (t0 : ℚ)
    (xh yh wh hh : Int) (st : St) (e : String)
    (hRead : s.read_region (xh, yh) 0 (wh, hh) = .error e) :
    stagingOn env s out q t0 xh yh wh hh st =
      .error (e, ⟨st.tick + 1,
        st.evs ++ [.setDesc 0 ("Reading image data"), .newBar 1 ("Reading") 100] ++
          loopTraceErr (xh, yh) (wh, hh), st.timing⟩) := by
  simp only [stagingOn]
  rw [simLoop_err _ _ _ _ _ hRead]
  simp [emit, now, tset, List.append_assoc]

theorem mappingOn_eq (env : Env) (s : Slide) (out : String) (q : Nat) (t0 : ℚ)
    (bb : Nat × Nat × Nat × Nat) (st : St) :
    mappingOn env s out q t0 bb st =
      stagingOn env s out q t0 (pyInt ((bb.1 : ℚ) * coarseScale s))
        (pyInt ((bb.2.1 : ℚ) * coarseScale s)) (pyInt ((bb.2.2.1 : ℚ) * coarseScale s))
        (pyInt ((bb.2.2.2 : ℚ) * coarseScale s))
        ⟨st.tick + 2,
          st.evs ++ [.setDesc 0 ("Calculating coordinates"),
            .timingSet ("coordinate_calc") (env.clock (st.tick + 1) - env.clock st.tick),
            .update 0 15],
          setKey st.timing ("coordinate_calc") (env.clock (st.tick + 1) - env.clock st.tick)⟩ := by
  simp [mappingOn, emit, now, tset, List.append_assoc]

/-- Events of the detection stage with a successful coarse read. -/
def detectTrace (env : Env) (s : Slide) (tick : Nat) : List Ev :=
  [.newBar 0 ("Overall Progress") 100, .setDesc 0 ("Detecting image region"),
    .readRegion (0, 0) (coarseLevel s) (((coarseDims s).1 : Int), ((coarseDims s).2 : Int)),
    .timingSet ("detection") (env.clock (tick + 1) - env.clock tick), .update 0 10]

theorem pipelineBody_read_err (env : Env) (s : Slide) (out : String) (q : Nat) (t0 : ℚ)
    (st : St) (e : String)
    (hRead : s.read_region (0, 0) (coarseLevel s)
      (((coarseDims s).1 : Int), ((coarseDims s).2 : Int)) = .error e) :
    pipelineBody env s out q t0 st =
      .error (e, ⟨st.tick + 1,
        st.evs ++ [.newBar 0 ("Overall Progress") 100, .setDesc 0 ("Detecting image region"),
          .readRegion (0, 0) (coarseLevel s)
            (((coarseDims s).1 : Int), ((coarseDims s).2 : Int))],
        st.timing⟩) := by
  simp only [pipelineBody]
  rw [hRead]
  simp [emit, now, tset, List.append_assoc]

theorem pipelineBody_nodetect (env : Env) (s : Slide) (out : String) (q : Nat) (t0 : ℚ)
    (st : St) (raw : Image RGBA)
    (hRead : s.read_region (0, 0) (coarseLevel s)
      (((coarseDims s).1 : Int), ((coarseDims s).2 : Int)) = .ok raw)
    (hFC : findContoursExt (cvThreshold10 (cvtColorGray (toRGB raw))) = []) :
    pipelineBody env s out q t0 st =
      .ok ((false, ("Error: No object detected"),
          setKey st.timing ("detection") (env.clock (st.tick + 1) - env.clock st.tick)),
        ⟨st.tick + 2, st.evs ++ detectTrace env s st.tick ++ [.closeBar 0],
          setKey st.timing ("detection") (env.clock (st.tick + 1) - env.clock st.tick)⟩) := by
  simp only [pipelineBody]
  rw [hRead]
  simp only [hFC]
  simp [emit, now, tset, detectTrace, List.append_assoc]

theorem pipelineBody_detect (env : Env) (s : Slide) (out : String) (q : Nat) (t0 : ℚ)
    (st : St) (raw : Image RGBA) (c : List Run) (cs : List (List Run))
    (hRead : s.read_region (0, 0) (coarseLevel s)
      (((coarseDims s).1 : Int), ((coarseDims s).2 : Int)) = .ok raw)
    (hFC : findContoursExt (cvThreshold10 (cvtColorGray (toRGB raw))) = c :: cs) :
    pipelineBody env s out q t0 st =
      mappingOn env s out q t0 (boundingRect (pyMax contourArea c cs))
        ⟨st.tick + 2, st.evs ++ detectTrace env s st.tick ++ [.update 0 15],
          setKey st.timing ("detection") (env.clock (st.tick + 1) - env.clock st.tick)⟩ := by
  simp only [pipelineBody]
  rw [hRead]
  simp only [hFC]
  simp [emit, now, tset, detectTrace, List.append_assoc]

theorem safe_convert_open_err (env : Env) (inP outP : String) (q : Nat) (e : String)
    (hOpen : env.openSlide inP = .error e) :
    safe_convert_mrxs_to_jpg_with_crop env inP outP q =
      ((false, ("Error: ") ++ e, setKey timingInit ("total") (env.clock 1 - env.clock 0)),
        [Ev.timingSet ("total") (env.clock 1 - env.clock 0)]) := by
  simp only [safe_convert_mrxs_to_jpg_with_crop]
  rw [hOpen]
  simp [now, tset, emit]

theorem safe_convert_body_ok (env : Env) (inP outP : String) (q : Nat) (s : Slide)
    (res : Res) (st : St) (hOpen : env.openSlide inP = .ok s)
    (hBody : pipelineBody env s outP q (env.clock 0) ⟨1, [], timingInit⟩ = .ok (res, st)) :
    safe_convert_mrxs_to_jpg_with_crop env inP outP q = (res, st.evs) := by
  simp only [safe_convert_mrxs_to_jpg_with_crop, now, hOpen, Nat.zero_add]
  rw [hBody]

theorem safe_convert_body_err (env : Env) (inP outP : String) (q : Nat) (s : Slide)
    (e : String) (st : St) (hOpen : env.openSlide inP = .ok s)
    (hBody : pipelineBody env s outP q (env.clock 0) ⟨1, [], timingInit⟩ = .error (e, st)) :
    safe_convert_mrxs_to_jpg_with_crop env inP outP q =
      ((false, ("Error: ") ++ e,
        setKey st.timing ("total") (env.clock st.tick - env.clock 0)),
        st.evs ++ [Ev.timingSet ("total") (env.clock st.tick - env.clock 0)]) := by
  simp only [safe_convert_mrxs_to_jpg_with_crop, now, hOpen, Nat.zero_add]
  rw [hBody]
  simp [now, tset, emit]

/-! ### All-black images produce no contours -/

theorem rowRunsAux_all_false :
    ∀ (bs : List Bool), (∀ b ∈ bs, b = false) → ∀ i, rowRunsAux bs i none = [] := by
  intro bs
  induction bs with
  | nil => intro _ _; rfl
  | cons b t ih =>
    intro h i
    have hb : b = false := h b (List.mem_cons_self b t)
    subst hb
    rw [show rowRunsAux (false :: t) i none = rowRunsAux t (i + 1) none from rfl]
    exact ih (fun x hx => h x (List.mem_cons_of_mem _ hx)) (i + 1)

theorem maskRuns_nil_of_all_false (m : Image Bool)
    (h : ∀ row ∈ m, ∀ b ∈ row, b = false) : maskRuns m = [] := by
  unfold maskRuns
  rw [List.flatten_eq_nil_iff]
  intro l hl
  rcases List.mem_map.1 hl with ⟨p, hp, rfl⟩
  have hrow : p.2 ∈ m := by
    have h2 := List.mem_enum_iff_getElem?.1 hp
    exact List.getElem?_mem h2
  rw [rowRuns, rowRunsAux_all_false p.2 (h p.2 hrow) 0]
  rfl

theorem findContoursExt_nil (m : Image Bool) (h : maskRuns m = []) :
    findContoursExt m = [] := by
  unfold findContoursExt
  rw [h]
  rfl

/-- A mask obtained by thresholding an image whose RGB channels are all zero
is entirely background. -/
theorem mask_all_false_of_black (raw : Image RGBA)
    (hBlack : ∀ row ∈ raw, ∀ p ∈ row, p.1 = 0 ∧ p.2.1 = 0 ∧ p.2.2.1 = 0) :
    ∀ row ∈ cvThreshold10 (cvtColorGray (toRGB raw)), ∀ b ∈ row, b = false := by
  intro row hrow b hb
  simp only [cvThreshold10, List.mem_map] at hrow
  rcases hrow with ⟨grow, hgrow, rfl⟩
  simp only [List.mem_map] at hb
  rcases hb with ⟨v, hv, rfl⟩
  simp only [cvtColorGray, List.mem_map] at hgrow
  rcases hgrow with ⟨rrow, hrrow, rfl⟩
  simp only [List.mem_map] at hv
  rcases hv with ⟨rgb, hrgb, rfl⟩
  simp only [toRGB, List.mem_map] at hrrow
  rcases hrrow with ⟨arow, harow, rfl⟩
  simp only [List.mem_map] at hrgb
  rcases hrgb with ⟨p, hp, rfl⟩
  rcases hBlack arow harow p hp with ⟨h1, h2, h3⟩
  simp only [h1, h2, h3]
  decide

/-! ### Concrete fixtures for witnesses and counterexamples -/

/-- A 2x2 entirely black RGBA image. -/
def blackImg : Image RGBA :=
  [[(0, 0, 0, 255), (0, 0, 0, 255)], [(0, 0, 0, 255), (0, 0, 0, 255)]]

/-- A single-level slide whose only plane is `blackImg`. -/
def blackSlide : Slide := ⟨1, [(2, 2)], [1], fun _ _ _ => .ok blackImg, by decide⟩

/-- Environment serving `blackSlide`, with a strictly increasing wall clock. -/
def envB : Env := ⟨fun _ => .ok blackSlide, fun n => (n : ℚ), fun _ _ => .ok ()⟩

/-- A 1x1 bright RGBA image. -/
def dotImg : Image RGBA := [[(255, 255, 255, 255)]]

/-- A single-level slide whose only plane is `dotImg`. -/
def dotSlide : Slide := ⟨1, [(1, 1)], [1], fun _ _ _ => .ok dotImg, by decide⟩

/-- Environment serving `dotSlide`. -/
def envD : Env := ⟨fun _ => .ok dotSlide, fun n => (n : ℚ), fun _ _ => .ok ()⟩

theorem envB_clock_mono : Monotone envB.clock := fun a b h => by
  show (a : ℚ) ≤ (b : ℚ)
  exact_mod_cast h

/-! ### Claim C3 -/

/-- C3, counterexample: on an entirely black input (with a strictly
increasing wall clock), the run does return `succeeded = false` with the
`No object detected` message, but `timing_info['total']` is `0`, not
positive: the early no-contour return (line 56) never assigns `total`. -/
theorem C3_counterexample :
    ((safe_convert_mrxs_to_jpg_with_crop envB ("black.mrxs") ("out.png") 80).1.1 = false ∧
      (safe_convert_mrxs_to_jpg_with_crop envB ("black.mrxs") ("out.png") 80).1.2.1 =
        ("Error: No object detected")) ∧
    ¬ (0 < tGet (safe_convert_mrxs_to_jpg_with_crop envB ("black.mrxs") ("out.png") 80).1.2.2
        ("total")) := by
  refine ⟨⟨by decide, by decide⟩, by decide⟩

/-- C3, amended: for an entirely black (all-zero-intensity) input image,
the run returns `succeeded = false` with the `No object detected` message,
and `timing_info['total']` remains `0` (the early return does not record
the elapsed time into `total`). -/
theorem C3_amended (env : Env) (inP outP : String) (q : Nat) (s : Slide) (raw : Image RGBA)
    (hOpen : env.openSlide inP = .ok s)
    (hRead : s.read_region (0, 0) (coarseLevel s)
      (((coarseDims s).1 : Int), ((coarseDims s).2 : Int)) = .ok raw)
    (hBlack : ∀ row ∈ raw, ∀ p ∈ row, p.1 = 0 ∧ p.2.1 = 0 ∧ p.2.2.1 = 0) :
    (safe_convert_mrxs_to_jpg_with_crop env inP outP q).1.1 = false ∧
    (safe_convert_mrxs_to_jpg_with_crop env inP outP q).1.2.1 =
      ("Error: No object detected") ∧
    tGet (safe_convert_mrxs_to_jpg_with_crop env inP outP q).1.2.2 ("total") = 0 := by
  have hFC : findContoursExt (cvThreshold10 (cvtColorGray (toRGB raw))) = [] :=
    findContoursExt_nil _ (maskRuns_nil_of_all_false _ (mask_all_false_of_black raw hBlack))
  have hBody := pipelineBody_nodetect env s outP q (env.clock 0) ⟨1, [], timingInit⟩ raw hRead hFC
  rw [safe_convert_body_ok env inP outP q s _ _ hOpen hBody]
  refine ⟨rfl, rfl, ?_⟩
  simp [tGet, setKey, timingInit]

/-- C3, witness: the amended statement holds at the concrete black slide. -/
theorem C3_witness :
    (envB.openSlide ("black.mrxs") = .ok blackSlide ∧
      blackSlide.read_region (0, 0) (coarseLevel blackSlide)
        (((coarseDims blackSlide).1 : Int), ((coarseDims blackSlide).2 : Int)) = .ok blackImg) ∧
    ((safe_convert_mrxs_to_jpg_with_crop envB ("black.mrxs") ("out.png") 80).1.1 = false ∧
      (safe_convert_mrxs_to_jpg_with_crop envB ("black.mrxs") ("out.png") 80).1.2.1 =
        ("Error: No object detected") ∧
      tGet (safe_convert_mrxs_to_jpg_with_crop envB ("black.mrxs") ("out.png") 80).1.2.2
        ("total") = 0) :=
  ⟨⟨rfl, rfl⟩,
    C3_amended envB ("black.mrxs") ("out.png") 80 blackSlide blackImg rfl rfl (by decide)⟩

/-! ### Claim C6: the end-to-end synthetic-pyramid scenario -/

set_option maxRecDepth 100000

/-- The coarsest level of the C6 scenario: a 60x40 plane whose bright
rectangle occupies columns 10-59 of rows 10-39, i.e. box (10, 10, 50, 30). -/
def rectImg : Image RGBA :=
  (List.range 40).map (fun r =>
    (List.range 60).map (fun c =>
      if 10 ≤ r ∧ r ≤ 39 ∧ 10 ≤ c ∧ c ≤ 59 then (255, 255, 255, 255) else (0, 0, 0, 255)))

/-- The foreground mask of `rectImg`. -/
def rectMask : Image Bool := cvThreshold10 (cvtColorGray (toRGB rectImg))

/-- The thirty foreground runs of `rectMask`. -/
def rectRuns : List Run := (List.range 30).map (fun k => ⟨10 + k, 10, 59⟩)

theorem rect_maskRuns : maskRuns rectMask = rectRuns := by decide

/-- The traced border of the solid 50x30 rectangle has Green-formula area
49 * 29 = 1421, i.e. the `cv2.contourArea` of a solid `w` by `h` block is
`(w-1)*(h-1)`; the model returns twice that. -/
theorem contourArea_rect : contourArea rectRuns = 2842 := by decide

theorem rect_consec : consecB adj8 rectRuns = true := by decide

theorem rect_contours : findContoursExt rectMask = [rectRuns] := by
  simp only [findContoursExt]
  rw [rect_maskRuns]
  have hcon : ∀ i j : Fin rectRuns.length, ReachIdx rectRuns adj8 i j :=
    reachIdx_all_of_consec rectRuns adj8 adj8_symm (consecB_get adj8 rectRuns rect_consec)
  rw [componentsList_eq_univ rectRuns adj8 (by decide) hcon]
  have hb : 10 < (bgRuns rectMask).length := by decide
  have hOuter : isOuterComp rectMask rectRuns Finset.univ = true := by
    unfold isOuterComp
    rw [decide_eq_true_eq]
    have hchB : consecB adj4 ((bgRuns rectMask).take 11) = true := by decide
    have hseed : (⟨0, by omega⟩ : Fin (bgRuns rectMask).length) ∈
        Finset.univ.filter (fun i => ((bgRuns rectMask).get i).row = 0) := by
      refine Finset.mem_filter.2 ⟨Finset.mem_univ _, ?_⟩
      rw [get_eq_runAt]
      decide
    have hreach : ReachIdx (bgRuns rectMask) adj4 ⟨0, by omega⟩ ⟨10, hb⟩ :=
      reachIdx_zero_of_consec (bgRuns rectMask) adj4 10 hb
        (fun k hk => consecB_take_get adj4 (bgRuns rectMask) 11 hchB k (by omega) (by omega))
    refine ⟨⟨0, by decide⟩, Finset.mem_univ _, ⟨10, hb⟩, ?_, ?_⟩
    · exact mem_closure_of_reach (bgRuns rectMask) adj4 hseed hreach
    · rw [get_eq_runAt, get_eq_runAt]
      decide
  simp only [List.filter_cons, List.filter_nil, hOuter, if_true, List.map_cons, List.map_nil,
    compRuns_univ]

/-- The C6 pyramid: three levels, downsamples `[1, 4, 16]`, coarsest level
`rectImg`; the level-0 read returns a small valid plane. -/
def slide6 : Slide :=
  { level_count := 3
    level_dimensions := [(960, 640), (240, 160), (60, 40)]
    level_downsamples := [1, 4, 16]
    read_region := fun _ lvl _ => if lvl = 2 then .ok rectImg else .ok [[(255, 255, 255, 255)]]
    hScale := by decide }

/-- Environment serving `slide6`. -/
def env6 : Env := ⟨fun _ => .ok slide6, fun n => (n : ℚ), fun _ _ => .ok ()⟩

/-- C6: on a pyramid with `levelCount = 3`, `levelDownsample = [1, 4, 16]`
whose coarsest level holds a foreground rectangle with bounding box
`(10, 10, 50, 30)`, the run succeeds, its message reports `800x480`, and the
full-resolution read requests exactly the region `(160, 160, 800, 480)` of
level 0. -/
theorem C6_scenario :
    (safe_convert_mrxs_to_jpg_with_crop env6 ("in.mrxs") ("out.png") 80).1.1 = true ∧
    (safe_convert_mrxs_to_jpg_with_crop env6 ("in.mrxs") ("out.png") 80).1.2.1 =
      ("Successfully saved 800x480 cropped image (original size)") ∧
    Ev.readRegion (160, 160) 0 (800, 480) ∈
      (safe_convert_mrxs_to_jpg_with_crop env6 ("in.mrxs") ("out.png") 80).2 := by
  have hBB : boundingRect (pyMax contourArea rectRuns []) = (10, 10, 50, 30) := by
    rw [show pyMax contourArea rectRuns [] = rectRuns from rfl]
    decide
  have hBody := pipelineBody_detect env6 slide6 ("out.png") 80 (env6.clock 0)
    ⟨1, [], timingInit⟩ rectImg rectRuns [] rfl rect_contours
  rw [hBB, mappingOn_eq] at hBody
  rw [show coarseScale slide6 = 16 from rfl] at hBody
  rw [show pyInt (((10 : Nat) : ℚ) * 16) = 160 from by
    rw [pyInt_eq_floor (by positivity)]; norm_num] at hBody
  rw [show pyInt (((50 : Nat) : ℚ) * 16) = 800 from by
    rw [pyInt_eq_floor (by positivity)]; norm_num] at hBody
  rw [show pyInt (((30 : Nat) : ℚ) * 16) = 480 from by
    rw [pyInt_eq_floor (by positivity)]; norm_num] at hBody
  rw [stagingOn_ok env6 slide6 ("out.png") 80 (env6.clock 0) 160 160 800 480 _
    [[(255, 255, 255, 255)]] rfl] at hBody
  rw [processingOn_eq] at hBody
  rw [savingOn_ok env6 ("out.png") 80 (env6.clock 0) _ 800 480 _ rfl] at hBody
  rw [safe_convert_body_ok env6 ("in.mrxs") ("out.png") 80 slide6 _ _ rfl hBody]
  refine ⟨rfl, by decide, ?_⟩
  simp [loopTrace, List.mem_append]

/-! ### Claim C1: coordinate mapping and the full-resolution read request -/

/-- The timing keys assigned during a run, in assignment order. -/
def writeKeys (evs : List Ev) : List String :=
  evs.filterMap (fun e => match e with | .timingSet k _ => some k | _ => none)

/-- C1: when detection finds the box `(x, y, w, h)` at the coarsest level with
downsample `d`, the mapped coordinates are `int(x*d)` etc., truncation toward
zero coincides with `floor` here (`d ≥ 1`, box coordinates non-negative), and
the run's single full-resolution read requests exactly the region of size
`(floor(w*d), floor(h*d))` at origin `(floor(x*d), floor(y*d))` from level 0. -/
theorem C1_mapping (env : Env) (inP outP : String) (q : Nat) (s : Slide) (raw : Image RGBA)
    (c : List Run) (cs : List (List Run))
    (hOpen : env.openSlide inP = .ok s)
    (hRead : s.read_region (0, 0) (coarseLevel s)
      (((coarseDims s).1 : Int), ((coarseDims s).2 : Int)) = .ok raw)
    (hFC : findContoursExt (cvThreshold10 (cvtColorGray (toRGB raw))) = c :: cs) :
    (pyInt (((boundingRect (pyMax contourArea c cs)).1 : ℚ) * coarseScale s) =
        ⌊((boundingRect (pyMax contourArea c cs)).1 : ℚ) * coarseScale s⌋ ∧
      pyInt (((boundingRect (pyMax contourArea c cs)).2.1 : ℚ) * coarseScale s) =
        ⌊((boundingRect (pyMax contourArea c cs)).2.1 : ℚ) * coarseScale s⌋ ∧
      pyInt (((boundingRect (pyMax contourArea c cs)).2.2.1 : ℚ) * coarseScale s) =
        ⌊((boundingRect (pyMax contourArea c cs)).2.2.1 : ℚ) * coarseScale s⌋ ∧
      pyInt (((boundingRect (pyMax contourArea c cs)).2.2.2 : ℚ) * coarseScale s) =
        ⌊((boundingRect (pyMax contourArea c cs)).2.2.2 : ℚ) * coarseScale s⌋) ∧
    Ev.readRegion
        (pyInt (((boundingRect (pyMax contourArea c cs)).1 : ℚ) * coarseScale s),
          pyInt (((boundingRect (pyMax contourArea c cs)).2.1 : ℚ) * coarseScale s)) 0
        (pyInt (((boundingRect (pyMax contourArea c cs)).2.2.1 : ℚ) * coarseScale s),
          pyInt (((boundingRect (pyMax contourArea c cs)).2.2.2 : ℚ) * coarseScale s)) ∈
      (safe_convert_mrxs_to_jpg_with_crop env inP outP q).2 := by
  have hd : (0 : ℚ) ≤ coarseScale s := le_trans zero_le_one (one_le_coarseScale s)
  have hfl : ∀ n : Nat, pyInt ((n : ℚ) * coarseScale s) = ⌊(n : ℚ) * coarseScale s⌋ :=
    fun n => pyInt_eq_floor (mul_nonneg (Nat.cast_nonneg n) hd)
  refine ⟨⟨hfl _, hfl _, hfl _, hfl _⟩, ?_⟩
  have hBody := pipelineBody_detect env s outP q (env.clock 0) ⟨1, [], timingInit⟩ raw c cs
    hRead hFC
  rw [mappingOn_eq] at hBody
  cases hS : s.read_region
      (pyInt (((boundingRect (pyMax contourArea c cs)).1 : ℚ) * coarseScale s),
        pyInt (((boundingRect (pyMax contourArea c cs)).2.1 : ℚ) * coarseScale s)) 0
      (pyInt (((boundingRect (pyMax contourArea c cs)).2.2.1 : ℚ) * coarseScale s),
        pyInt (((boundingRect (pyMax contourArea c cs)).2.2.2 : ℚ) * coarseScale s)) with
  | error e =>
    rw [stagingOn_err _ _ _ _ _ _ _ _ _ _ e hS] at hBody
    rw [safe_convert_body_err env inP outP q s _ _ hOpen hBody]
    simp [loopTraceErr, List.mem_append]
  | ok raw2 =>
    rw [stagingOn_ok _ _ _ _ _ _ _ _ _ _ raw2 hS, processingOn_eq] at hBody
    cases hW : env.save outP (toRGB raw2) with
    | error e =>
      rw [savingOn_err _ _ _ _ _ _ _ _ e hW] at hBody
      rw [safe_convert_body_err env inP outP q s _ _ hOpen hBody]
      simp [loopTrace, List.mem_append]
    | ok u =>
      cases u
      rw [savingOn_ok _ _ _ _ _ _ _ _ hW] at hBody
      rw [safe_convert_body_ok env inP outP q s _ _ hOpen hBody]
      simp [loopTrace, List.mem_append]

/-- A two-level slide whose full-resolution read fails with an I/O error. -/
def dotSlideRF : Slide :=
  ⟨2, [(1, 1), (1, 1)], [1, 1],
    fun _ lvl _ => if lvl = 1 then .ok dotImg else .error ("read failed"), by decide⟩

/-- Environment serving `dotSlideRF`. -/
def envRF : Env := ⟨fun _ => .ok dotSlideRF, fun n => (n : ℚ), fun _ _ => .ok ()⟩

/-- C1, witness at the one-dot slide. -/
theorem C1_witness :
    (envD.openSlide ("a.mrxs") = .ok dotSlide ∧
      dotSlide.read_region (0, 0) (coarseLevel dotSlide)
        (((coarseDims dotSlide).1 : Int), ((coarseDims dotSlide).2 : Int)) = .ok dotImg ∧
      findContoursExt (cvThreshold10 (cvtColorGray (toRGB dotImg))) = [⟨0, 0, 0⟩] :: []) ∧
    Ev.readRegion
        (pyInt (((boundingRect (pyMax contourArea [(⟨0, 0, 0⟩ : Run)] [])).1 : ℚ) *
            coarseScale dotSlide),
          pyInt (((boundingRect (pyMax contourArea [(⟨0, 0, 0⟩ : Run)] [])).2.1 : ℚ) *
            coarseScale dotSlide)) 0
        (pyInt (((boundingRect (pyMax contourArea [(⟨0, 0, 0⟩ : Run)] [])).2.2.1 : ℚ) *
            coarseScale dotSlide),
          pyInt (((boundingRect (pyMax contourArea [(⟨0, 0, 0⟩ : Run)] [])).2.2.2 : ℚ) *
            coarseScale dotSlide)) ∈
      (safe_convert_mrxs_to_jpg_with_crop envD ("a.mrxs") ("o.png") 80).2 :=
  ⟨⟨rfl, rfl, by decide⟩,
    (C1_mapping envD ("a.mrxs") ("o.png") 80 dotSlide dotImg [⟨0, 0, 0⟩] [] rfl rfl
      (by decide)).2⟩

/-! ### Claim C4: failing full-resolution read -/

/-- C4: when the coarse stages succeed but the Pyramid Source raises an I/O
error during the full-resolution read, the run returns `succeeded = false`
with the wrapped read error as message, `detection` and `coordinate_calc`
have been assigned, and `image_reading` was never assigned and remains 0. -/
theorem C4_read_failure (env : Env) (inP outP : String) (q : Nat) (s : Slide)
    (raw : Image RGBA) (c : List Run) (cs : List (List Run)) (e : String)
    (hOpen : env.openSlide inP = .ok s)
    (hRead : s.read_region (0, 0) (coarseLevel s)
      (((coarseDims s).1 : Int), ((coarseDims s).2 : Int)) = .ok raw)
    (hFC : findContoursExt (cvThreshold10 (cvtColorGray (toRGB raw))) = c :: cs)
    (hStage : s.read_region
      (pyInt (((boundingRect (pyMax contourArea c cs)).1 : ℚ) * coarseScale s),
        pyInt (((boundingRect (pyMax contourArea c cs)).2.1 : ℚ) * coarseScale s)) 0
      (pyInt (((boundingRect (pyMax contourArea c cs)).2.2.1 : ℚ) * coarseScale s),
        pyInt (((boundingRect (pyMax contourArea c cs)).2.2.2 : ℚ) * coarseScale s)) =
      .error e) :
    (safe_convert_mrxs_to_jpg_with_crop env inP outP q).1.1 = false ∧
    (safe_convert_mrxs_to_jpg_with_crop env inP outP q).1.2.1 = ("Error: ") ++ e ∧
    tGet (safe_convert_mrxs_to_jpg_with_crop env inP outP q).1.2.2 ("image_reading") = 0 ∧
    ("detection") ∈ writeKeys (safe_convert_mrxs_to_jpg_with_crop env inP outP q).2 ∧
    ("coordinate_calc") ∈ writeKeys (safe_convert_mrxs_to_jpg_with_crop env inP outP q).2 ∧
    ("image_reading") ∉ writeKeys (safe_convert_mrxs_to_jpg_with_crop env inP outP q).2 := by
  have hBody := pipelineBody_detect env s outP q (env.clock 0) ⟨1, [], timingInit⟩ raw c cs
    hRead hFC
  rw [mappingOn_eq] at hBody
  rw [stagingOn_err _ _ _ _ _ _ _ _ _ _ e hStage] at hBody
  rw [safe_convert_body_err env inP outP q s _ _ hOpen hBody]
  refine ⟨rfl, rfl, ?_, ?_, ?_, ?_⟩
  · simp [tGet, setKey, timingInit]
  · simp [writeKeys, detectTrace, loopTraceErr]
  · simp [writeKeys, detectTrace, loopTraceErr]
  · simp [writeKeys, detectTrace, loopTraceErr]

/-- C4, witness at the slide whose level-0 read fails. -/
theorem C4_witness :
    (envRF.openSlide ("a.mrxs") = .ok dotSlideRF ∧
      dotSlideRF.read_region (0, 0) (coarseLevel dotSlideRF)
        (((coarseDims dotSlideRF).1 : Int), ((coarseDims dotSlideRF).2 : Int)) = .ok dotImg ∧
      findContoursExt (cvThreshold10 (cvtColorGray (toRGB dotImg))) = [⟨0, 0, 0⟩] :: [] ∧
      dotSlideRF.read_region
        (pyInt (((boundingRect (pyMax contourArea [(⟨0, 0, 0⟩ : Run)] [])).1 : ℚ) *
            coarseScale dotSlideRF),
          pyInt (((boundingRect (pyMax contourArea [(⟨0, 0, 0⟩ : Run)] [])).2.1 : ℚ) *
            coarseScale dotSlideRF)) 0
        (pyInt (((boundingRect (pyMax contourArea [(⟨0, 0, 0⟩ : Run)] [])).2.2.1 : ℚ) *
            coarseScale dotSlideRF),
          pyInt (((boundingRect (pyMax contourArea [(⟨0, 0, 0⟩ : Run)] [])).2.2.2 : ℚ) *
            coarseScale dotSlideRF)) = .error ("read failed")) ∧
    ((safe_convert_mrxs_to_jpg_with_crop envRF ("a.mrxs") ("o.png") 80).1.1 = false ∧
      (safe_convert_mrxs_to_jpg_with_crop envRF ("a.mrxs") ("o.png") 80).1.2.1 =
        ("Error: ") ++ ("read failed") ∧
      tGet (safe_convert_mrxs_to_jpg_with_crop envRF ("a.mrxs") ("o.png") 80).1.2.2
        ("image_reading") = 0 ∧
      ("detection") ∈ writeKeys (safe_convert_mrxs_to_jpg_with_crop envRF ("a.mrxs") ("o.png") 80).2 ∧
      ("coordinate_calc") ∈
        writeKeys (safe_convert_mrxs_to_jpg_with_crop envRF ("a.mrxs") ("o.png") 80).2 ∧
      ("image_reading") ∉
        writeKeys (safe_convert_mrxs_to_jpg_with_crop envRF ("a.mrxs") ("o.png") 80).2) :=
  ⟨⟨rfl, rfl, by decide, rfl⟩,
    C4_read_failure envRF ("a.mrxs") ("o.png") 80 dotSlideRF dotImg [⟨0, 0, 0⟩] []
      ("read failed") rfl rfl (by decide) rfl⟩

/-! ### Claim C5: all errors are converted into the result triple -/

/-- C5: the entry point is total and always yields the result triple: either
`succeeded = true` with a `Successfully saved ...` message, or
`succeeded = false` with a message starting with `Error: ` — every failure of
any stage (source open, detection, read, processing, save) lands in the
second branch; no error escapes. -/
theorem C5_error_conversion (env : Env) (inP outP : String) (q : Nat) :
    ((safe_convert_mrxs_to_jpg_with_crop env inP outP q).1.1 = true ∧
      ∃ r, (safe_convert_mrxs_to_jpg_with_crop env inP outP q).1.2.1 =
        ("Successfully saved ") ++ r) ∨
    ((safe_convert_mrxs_to_jpg_with_crop env inP outP q).1.1 = false ∧
      ∃ r, (safe_convert_mrxs_to_jpg_with_crop env inP outP q).1.2.1 = ("Error: ") ++ r) := by
  cases hO : env.openSlide inP with
  | error e =>
    rw [safe_convert_open_err env inP outP q e hO]
    exact Or.inr ⟨rfl, e, rfl⟩
  | ok s =>
    cases hR : s.read_region (0, 0) (coarseLevel s)
        (((coarseDims s).1 : Int), ((coarseDims s).2 : Int)) with
    | error e =>
      have hBody := pipelineBody_read_err env s outP q (env.clock 0) ⟨1, [], timingInit⟩ e hR
      rw [safe_convert_body_err env inP outP q s _ _ hO hBody]
      exact Or.inr ⟨rfl, e, rfl⟩
    | ok raw =>
      cases hFC : findContoursExt (cvThreshold10 (cvtColorGray (toRGB raw))) with
      | nil =>
        have hBody := pipelineBody_nodetect env s outP q (env.clock 0) ⟨1, [], timingInit⟩
          raw hR hFC
        rw [safe_convert_body_ok env inP outP q s _ _ hO hBody]
        exact Or.inr ⟨rfl, ("No object detected"), rfl⟩
      | cons c cs =>
        have hBody := pipelineBody_detect env s outP q (env.clock 0) ⟨1, [], timingInit⟩
          raw c cs hR hFC
        rw [mappingOn_eq] at hBody
        set bb := boundingRect (pyMax contourArea c cs) with hbb
        set xh := pyInt ((bb.1 : ℚ) * coarseScale s) with hxh
        set yh := pyInt ((bb.2.1 : ℚ) * coarseScale s) with hyh
        set wh := pyInt ((bb.2.2.1 : ℚ) * coarseScale s) with hwh
        set hh2 := pyInt ((bb.2.2.2 : ℚ) * coarseScale s) with hhh
        cases hS : s.read_region (xh, yh) 0 (wh, hh2) with
        | error e =>
          rw [stagingOn_err _ _ _ _ _ _ _ _ _ _ e hS] at hBody
          rw [safe_convert_body_err env inP outP q s _ _ hO hBody]
          exact Or.inr ⟨rfl, e, rfl⟩
        | ok raw2 =>
          rw [stagingOn_ok _ _ _ _ _ _ _ _ _ _ raw2 hS, processingOn_eq] at hBody
          cases hW : env.save outP (toRGB raw2) with
          | error e =>
            rw [savingOn_err _ _ _ _ _ _ _ _ e hW] at hBody
            rw [safe_convert_body_err env inP outP q s _ _ hO hBody]
            exact Or.inr ⟨rfl, e, rfl⟩
          | ok u =>
            cases u
            rw [savingOn_ok _ _ _ _ _ _ _ _ hW] at hBody
            rw [safe_convert_body_ok env inP outP q s _ _ hO hBody]
            refine Or.inl ⟨rfl,
              toString wh ++ ("x") ++ toString hh2 ++ (" cropped image (original size)"), ?_⟩
            simp [String.append_assoc]

/-! ### Claim C7: the quality argument has no effect on the persisted pixels -/

/-- The persisted files of a trace: path and byte content. -/
def fileData : Ev → Option (String × List Nat) :=
  fun e => match e with | .fileWritten p bs => some (p, bs) | _ => none

/-- C7: two runs differing only in `quality` (1..100) persist identical data,
and a written file always decodes (losslessly) to exactly the pixel data that
was supplied to the output writer. -/
theorem C7_quality (env : Env) (inP outP : String) (q1 q2 : Nat)
    (_hq1 : 1 ≤ q1) (_hq1' : q1 ≤ 100) (_hq2 : 1 ≤ q2) (_hq2' : q2 ≤ 100) :
    ((safe_convert_mrxs_to_jpg_with_crop env inP outP q1).2.filterMap fileData =
      (safe_convert_mrxs_to_jpg_with_crop env inP outP q2).2.filterMap fileData) ∧
    (∀ p bs, Ev.fileWritten p bs ∈ (safe_convert_mrxs_to_jpg_with_crop env inP outP q1).2 →
      ∃ img, env.save outP img = .ok () ∧ bs = pngEncode img ∧ pngDecode bs = some img) := by
  cases hO : env.openSlide inP with
  | error e =>
    rw [safe_convert_open_err env inP outP q1 e hO, safe_convert_open_err env inP outP q2 e hO]
    exact ⟨rfl, by simp [fileData]⟩
  | ok s =>
    cases hR : s.read_region (0, 0) (coarseLevel s)
        (((coarseDims s).1 : Int), ((coarseDims s).2 : Int)) with
    | error e =>
      have hB1 := pipelineBody_read_err env s outP q1 (env.clock 0) ⟨1, [], timingInit⟩ e hR
      have hB2 := pipelineBody_read_err env s outP q2 (env.clock 0) ⟨1, [], timingInit⟩ e hR
      rw [safe_convert_body_err env inP outP q1 s _ _ hO hB1,
        safe_convert_body_err env inP outP q2 s _ _ hO hB2]
      exact ⟨rfl, by simp [fileData]⟩
    | ok raw =>
      cases hFC : findContoursExt (cvThreshold10 (cvtColorGray (toRGB raw))) with
      | nil =>
        have hB1 := pipelineBody_nodetect env s outP q1 (env.clock 0) ⟨1, [], timingInit⟩
          raw hR hFC
        have hB2 := pipelineBody_nodetect env s outP q2 (env.clock 0) ⟨1, [], timingInit⟩
          raw hR hFC
        rw [safe_convert_body_ok env inP outP q1 s _ _ hO hB1,
          safe_convert_body_ok env inP outP q2 s _ _ hO hB2]
        exact ⟨rfl, by simp [fileData, detectTrace]⟩
      | cons c cs =>
        have hB1 := pipelineBody_detect env s outP q1 (env.clock 0) ⟨1, [], timingInit⟩
          raw c cs hR hFC
        have hB2 := pipelineBody_detect env s outP q2 (env.clock 0) ⟨1, [], timingInit⟩
          raw c cs hR hFC
        rw [mappingOn_eq] at hB1 hB2
        set bb := boundingRect (pyMax contourArea c cs) with hbb
        set xh := pyInt ((bb.1 : ℚ) * coarseScale s) with hxh
        set yh := pyInt ((bb.2.1 : ℚ) * coarseScale s) with hyh
        set wh := pyInt ((bb.2.2.1 : ℚ) * coarseScale s) with hwh
        set hh2 := pyInt ((bb.2.2.2 : ℚ) * coarseScale s) with hhh
        cases hS : s.read_region (xh, yh) 0 (wh, hh2) with
        | error e =>
          rw [stagingOn_err _ _ _ _ _ _ _ _ _ _ e hS] at hB1 hB2
          rw [safe_convert_body_err env inP outP q1 s _ _ hO hB1,
            safe_convert_body_err env inP outP q2 s _ _ hO hB2]
          exact ⟨rfl, by simp [fileData, detectTrace, loopTraceErr]⟩
        | ok raw2 =>
          rw [stagingOn_ok _ _ _ _ _ _ _ _ _ _ raw2 hS, processingOn_eq] at hB1 hB2
          cases hW : env.save outP (toRGB raw2) with
          | error e =>
            rw [savingOn_err _ _ _ _ _ _ _ _ e hW] at hB1 hB2
            rw [safe_convert_body_err env inP outP q1 s _ _ hO hB1,
              safe_convert_body_err env inP outP q2 s _ _ hO hB2]
            exact ⟨rfl, by simp [fileData, detectTrace, loopTrace]⟩
          | ok u =>
            cases u
            rw [savingOn_ok _ _ _ _ _ _ _ _ hW] at hB1 hB2
            rw [safe_convert_body_ok env inP outP q1 s _ _ hO hB1,
              safe_convert_body_ok env inP outP q2 s _ _ hO hB2]
            constructor
            · simp [fileData, detectTrace, loopTrace]
            · intro p bs hmem
              simp [fileData, detectTrace, loopTrace] at hmem
              rcases hmem with ⟨rfl, rfl⟩
              exact ⟨toRGB raw2, hW, rfl, pngDecode_encode _⟩

/-- C7, witness at the one-dot slide with qualities 1 and 100. -/
theorem C7_witness :
    (1 ≤ 1 ∧ 1 ≤ 100 ∧ 1 ≤ 100 ∧ 100 ≤ 100) ∧
    ((safe_convert_mrxs_to_jpg_with_crop envD ("a.mrxs") ("o.png") 1).2.filterMap fileData =
      (safe_convert_mrxs_to_jpg_with_crop envD ("a.mrxs") ("o.png") 100).2.filterMap fileData) :=
  ⟨⟨le_refl 1, by omega, by omega, le_refl 100⟩,
    (C7_quality envD ("a.mrxs") ("o.png") 1 100 (le_refl 1) (by omega) (by omega)
      (le_refl 100)).1⟩

/-! ### Claim C10: the output format is always the PNG constant -/

/-- C10: every save issued by any run passes the fixed format constant
`'png'`, whatever extension `output_path` carries, and every persisted file
holds PNG-encoded pixel data. -/
theorem C10_png_format (env : Env) (inP outP : String) (q : Nat) :
    (∀ p f qq, Ev.saveAttempt p f qq ∈ (safe_convert_mrxs_to_jpg_with_crop env inP outP q).2 →
      f = ("png")) ∧
    (∀ p bs, Ev.fileWritten p bs ∈ (safe_convert_mrxs_to_jpg_with_crop env inP outP q).2 →
      ∃ img, bs = pngEncode img) := by
  cases hO : env.openSlide inP with
  | error e =>
    rw [safe_convert_open_err env inP outP q e hO]
    exact ⟨by simp, by simp⟩
  | ok s =>
    cases hR : s.read_region (0, 0) (coarseLevel s)
        (((coarseDims s).1 : Int), ((coarseDims s).2 : Int)) with
    | error e =>
      have hBody := pipelineBody_read_err env s outP q (env.clock 0) ⟨1, [], timingInit⟩ e hR
      rw [safe_convert_body_err env inP outP q s _ _ hO hBody]
      exact ⟨by simp, by simp⟩
    | ok raw =>
      cases hFC : findContoursExt (cvThreshold10 (cvtColorGray (toRGB raw))) with
      | nil =>
        have hBody := pipelineBody_nodetect env s outP q (env.clock 0) ⟨1, [], timingInit⟩
          raw hR hFC
        rw [safe_convert_body_ok env inP outP q s _ _ hO hBody]
        exact ⟨by simp [detectTrace], by simp [detectTrace]⟩
      | cons c cs =>
        have hBody := pipelineBody_detect env s outP q (env.clock 0) ⟨1, [], timingInit⟩
          raw c cs hR hFC
        rw [mappingOn_eq] at hBody
        set bb := boundingRect (pyMax contourArea c cs) with hbb
        set xh := pyInt ((bb.1 : ℚ) * coarseScale s) with hxh
        set yh := pyInt ((bb.2.1 : ℚ) * coarseScale s) with hyh
        set wh := pyInt ((bb.2.2.1 : ℚ) * coarseScale s) with hwh
        set hh2 := pyInt ((bb.2.2.2 : ℚ) * coarseScale s) with hhh
        cases hS : s.read_region (xh, yh) 0 (wh, hh2) with
        | error e =>
          rw [stagingOn_err _ _ _ _ _ _ _ _ _ _ e hS] at hBody
          rw [safe_convert_body_err env inP outP q s _ _ hO hBody]
          exact ⟨by simp [detectTrace, loopTraceErr], by simp [detectTrace, loopTraceErr]⟩
        | ok raw2 =>
          rw [stagingOn_ok _ _ _ _ _ _ _ _ _ _ raw2 hS, processingOn_eq] at hBody
          cases hW : env.save outP (toRGB raw2) with
          | error e =>
            rw [savingOn_err _ _ _ _ _ _ _ _ e hW] at hBody
            rw [safe_convert_body_err env inP outP q s _ _ hO hBody]
            constructor
            · intro p f qq hmem
              simp [detectTrace, loopTrace] at hmem
              exact hmem.2.1
            · simp [detectTrace, loopTrace]
          | ok u =>
            cases u
            rw [savingOn_ok _ _ _ _ _ _ _ _ hW] at hBody
            rw [safe_convert_body_ok env inP outP q s _ _ hO hBody]
            constructor
            · intro p f qq hmem
              simp [detectTrace, loopTrace] at hmem
              exact hmem.2.1
            · intro p bs hmem
              simp [detectTrace, loopTrace] at hmem
              exact ⟨toRGB raw2, hmem.2⟩

/-- C10, witness: an output path ending in `.jpg` still gets the `'png'`
format constant (and the theorem's format conclusion holds there). -/
theorem C10_witness :
    Ev.saveAttempt ("out.jpg") ("png") 80 ∈
      (safe_convert_mrxs_to_jpg_with_crop envD ("a.mrxs") ("out.jpg") 80).2 ∧
    ("png" : String) = ("png") :=
  ⟨by decide,
    (C10_png_format envD ("a.mrxs") ("out.jpg") 80).1 ("out.jpg") ("png") 80 (by decide)⟩

/-! ### Claim C8: the staged read and its cosmetic checkpoints -/

/-- Recognizer for `read_region` request events. -/
def isReadEv : Ev → Bool := fun e => match e with | .readRegion _ _ _ => true | _ => false

/-- Recognizer for the staging progress checkpoints (`read_progress.update`). -/
def isCheckpoint : Ev → Bool := fun e => match e with | .update 1 _ => true | _ => false

theorem split_loopTrace (X Y : List Ev) (P SZ : Int × Int)
    (hYr : Y.filter isReadEv = []) (hYc : Y.filter isCheckpoint = []) :
    ∃ a b, X ++ (loopTrace P SZ ++ Y) = a ++ Ev.readRegion P 0 SZ :: b ∧
      b.filter isReadEv = [] ∧ (b.filter isCheckpoint).length = 4 := by
  refine ⟨X ++ [.sleep (1 / 5), .update 1 10, .sleep (1 / 5), .update 1 10, .sleep (1 / 5),
      .update 1 10, .sleep (1 / 5), .update 1 10, .sleep (1 / 5), .update 1 10, .sleep (1 / 5),
      .update 1 10],
    [.sleep (1 / 5), .update 1 10, .sleep (1 / 5), .update 1 10, .sleep (1 / 5), .update 1 10,
      .sleep (1 / 5), .update 1 10] ++ Y, ?_, ?_, ?_⟩
  · simp [loopTrace, List.append_assoc]
  · simp [List.filter_append, hYr, isReadEv]
  · simp [List.filter_append, hYc, isCheckpoint]

/-- C8: when the run reaches the staging read and the read succeeds, the trace
contains exactly ten staging checkpoints, each of ten units; the staging stage
issues exactly one full-resolution (level 0) read — the only other read of the
run is the earlier coarse detection read; and after the read's position in the
trace no further read occurs while four of the ten checkpoints do, so the
checkpoint sequence completes only after the read has returned and never gates
or reorders it. -/
theorem C8_staging (env : Env) (inP outP : String) (q : Nat) (s : Slide)
    (raw : Image RGBA) (c : List Run) (cs : List (List Run)) (raw2 : Image RGBA)
    (hOpen : env.openSlide inP = .ok s)
    (hRead : s.read_region (0, 0) (coarseLevel s)
      (((coarseDims s).1 : Int), ((coarseDims s).2 : Int)) = .ok raw)
    (hFC : findContoursExt (cvThreshold10 (cvtColorGray (toRGB raw))) = c :: cs)
    (hStage : s.read_region
      (pyInt (((boundingRect (pyMax contourArea c cs)).1 : ℚ) * coarseScale s),
        pyInt (((boundingRect (pyMax contourArea c cs)).2.1 : ℚ) * coarseScale s)) 0
      (pyInt (((boundingRect (pyMax contourArea c cs)).2.2.1 : ℚ) * coarseScale s),
        pyInt (((boundingRect (pyMax contourArea c cs)).2.2.2 : ℚ) * coarseScale s)) =
      .ok raw2) :
    ((safe_convert_mrxs_to_jpg_with_crop env inP outP q).2.filter isCheckpoint =
      List.replicate 10 (Ev.update 1 10)) ∧
    ((safe_convert_mrxs_to_jpg_with_crop env inP outP q).2.filter isReadEv =
      [Ev.readRegion (0, 0) (coarseLevel s) (((coarseDims s).1 : Int), ((coarseDims s).2 : Int)),
        Ev.readRegion
          (pyInt (((boundingRect (pyMax contourArea c cs)).1 : ℚ) * coarseScale s),
            pyInt (((boundingRect (pyMax contourArea c cs)).2.1 : ℚ) * coarseScale s)) 0
          (pyInt (((boundingRect (pyMax contourArea c cs)).2.2.1 : ℚ) * coarseScale s),
            pyInt (((boundingRect (pyMax contourArea c cs)).2.2.2 : ℚ) * coarseScale s))]) ∧
    (∃ a b, (safe_convert_mrxs_to_jpg_with_crop env inP outP q).2 =
        a ++ Ev.readRegion
          (pyInt (((boundingRect (pyMax contourArea c cs)).1 : ℚ) * coarseScale s),
            pyInt (((boundingRect (pyMax contourArea c cs)).2.1 : ℚ) * coarseScale s)) 0
          (pyInt (((boundingRect (pyMax contourArea c cs)).2.2.1 : ℚ) * coarseScale s),
            pyInt (((boundingRect (pyMax contourArea c cs)).2.2.2 : ℚ) * coarseScale s)) :: b ∧
        b.filter isReadEv = [] ∧ (b.filter isCheckpoint).length = 4) := by
  have hBody := pipelineBody_detect env s outP q (env.clock 0) ⟨1, [], timingInit⟩ raw c cs
    hRead hFC
  rw [mappingOn_eq] at hBody
  rw [stagingOn_ok _ _ _ _ _ _ _ _ _ _ raw2 hStage, processingOn_eq] at hBody
  cases hW : env.save outP (toRGB raw2) with
  | error e =>
    rw [savingOn_err _ _ _ _ _ _ _ _ e hW] at hBody
    rw [safe_convert_body_err env inP outP q s _ _ hOpen hBody]
    refine ⟨?_, ?_, ?_⟩
    · simp [detectTrace, loopTrace, isCheckpoint, List.filter_append]
    · simp [detectTrace, loopTrace, isReadEv, List.filter_append]
    · have h := split_loopTrace
        (detectTrace env s 1 ++
          [Ev.update 0 15, Ev.setDesc 0 ("Calculating coordinates"),
            Ev.timingSet ("coordinate_calc") (env.clock 4 - env.clock 3), Ev.update 0 15,
            Ev.setDesc 0 ("Reading image data"), Ev.newBar 1 ("Reading") 100])
        ([Ev.closeBar 1, Ev.timingSet ("image_reading") (env.clock 6 - env.clock 5),
          Ev.update 0 30, Ev.setDesc 0 ("Processing image"),
          Ev.timingSet ("processing") (env.clock 8 - env.clock 7), Ev.update 0 20,
          Ev.setDesc 0 ("Saving image"), Ev.saveAttempt outP ("png") q,
          Ev.timingSet ("total") (env.clock 10 - env.clock 0)])
        (pyInt (((boundingRect (pyMax contourArea c cs)).1 : ℚ) * coarseScale s),
          pyInt (((boundingRect (pyMax contourArea c cs)).2.1 : ℚ) * coarseScale s))
        (pyInt (((boundingRect (pyMax contourArea c cs)).2.2.1 : ℚ) * coarseScale s),
          pyInt (((boundingRect (pyMax contourArea c cs)).2.2.2 : ℚ) * coarseScale s))
        (by simp [isReadEv]) (by simp [isCheckpoint])
      rcases h with ⟨a, b, hab, hbr, hbc⟩
      refine ⟨a, b, ?_, hbr, hbc⟩
      rw [← hab]
      simp [detectTrace, List.append_assoc]
  | ok u =>
    cases u
    rw [savingOn_ok _ _ _ _ _ _ _ _ hW] at hBody
    rw [safe_convert_body_ok env inP outP q s _ _ hOpen hBody]
    refine ⟨?_, ?_, ?_⟩
    · simp [detectTrace, loopTrace, isCheckpoint, List.filter_append]
    · simp [detectTrace, loopTrace, isReadEv, List.filter_append]
    · have h := split_loopTrace
        (detectTrace env s 1 ++
          [Ev.update 0 15, Ev.setDesc 0 ("Calculating coordinates"),
            Ev.timingSet ("coordinate_calc") (env.clock 4 - env.clock 3), Ev.update 0 15,
            Ev.setDesc 0 ("Reading image data"), Ev.newBar 1 ("Reading") 100])
        ([Ev.closeBar 1, Ev.timingSet ("image_reading") (env.clock 6 - env.clock 5),
          Ev.update 0 30, Ev.setDesc 0 ("Processing image"),
          Ev.timingSet ("processing") (env.clock 8 - env.clock 7), Ev.update 0 20,
          Ev.setDesc 0 ("Saving image"), Ev.saveAttempt outP ("png") q,
          Ev.fileWritten outP (pngEncode (toRGB raw2)),
          Ev.timingSet ("saving") (env.clock 10 - env.clock 9), Ev.update 0 10,
          Ev.setDesc 0 ("Conversion complete"), Ev.closeBar 0,
          Ev.timingSet ("total") (env.clock 11 - env.clock 0)])
        (pyInt (((boundingRect (pyMax contourArea c cs)).1 : ℚ) * coarseScale s),
          pyInt (((boundingRect (pyMax contourArea c cs)).2.1 : ℚ) * coarseScale s))
        (pyInt (((boundingRect (pyMax contourArea c cs)).2.2.1 : ℚ) * coarseScale s),
          pyInt (((boundingRect (pyMax contourArea c cs)).2.2.2 : ℚ) * coarseScale s))
        (by simp [isReadEv]) (by simp [isCheckpoint])
      rcases h with ⟨a, b, hab, hbr, hbc⟩
      refine ⟨a, b, ?_, hbr, hbc⟩
      rw [← hab]
      simp [detectTrace, List.append_assoc]

/-- C8, witness at the one-dot slide. -/
theorem C8_witness :
    (envD.openSlide ("a.mrxs") = .ok dotSlide ∧
      dotSlide.read_region (0, 0) (coarseLevel dotSlide)
        (((coarseDims dotSlide).1 : Int), ((coarseDims dotSlide).2 : Int)) = .ok dotImg ∧
      findContoursExt (cvThreshold10 (cvtColorGray (toRGB dotImg))) = [⟨0, 0, 0⟩] :: [] ∧
      dotSlide.read_region
        (pyInt (((boundingRect (pyMax contourArea [(⟨0, 0, 0⟩ : Run)] [])).1 : ℚ) *
            coarseScale dotSlide),
          pyInt (((boundingRect (pyMax contourArea [(⟨0, 0, 0⟩ : Run)] [])).2.1 : ℚ) *
            coarseScale dotSlide)) 0
        (pyInt (((boundingRect (pyMax contourArea [(⟨0, 0, 0⟩ : Run)] [])).2.2.1 : ℚ) *
            coarseScale dotSlide),
          pyInt (((boundingRect (pyMax contourArea [(⟨0, 0, 0⟩ : Run)] [])).2.2.2 : ℚ) *
            coarseScale dotSlide)) = .ok dotImg) ∧
    (safe_convert_mrxs_to_jpg_with_crop envD ("a.mrxs") ("o.png") 80).2.filter isCheckpoint =
      List.replicate 10 (Ev.update 1 10) :=
  ⟨⟨rfl, rfl, by decide, rfl⟩,
    (C8_staging envD ("a.mrxs") ("o.png") 80 dotSlide dotImg [⟨0, 0, 0⟩] [] dotImg rfl rfl
      (by decide) rfl).1⟩

/-! ### Claim C9: the timing dictionary invariants -/

theorem keys_setKey (t : List (String × ℚ)) (k : String) (v : ℚ) :
    (setKey t k v).map Prod.fst = t.map Prod.fst := by
  unfold setKey
  rw [List.map_map]
  apply List.map_congr_left
  intro p _
  by_cases h : p.1 = k
  · simp [h]
  · simp [h]

theorem tGet_setKey_ne (t : List (String × ℚ)) (k' : String) (v : ℚ) (k : String)
    (h : k' ≠ k) : tGet (setKey t k' v) k = tGet t k := by
  unfold tGet setKey
  induction t with
  | nil => rfl
  | cons p t ih =>
    by_cases hp : p.1 = k'
    · simp only [List.map_cons, if_pos hp, List.find?_cons]
      have h1 : (k' == k) = false := by simp [h]
      have h2 : (p.1 == k) = false := by simp [hp, h]
      rw [h1, h2]
      exact ih
    · simp only [List.map_cons, if_neg hp, List.find?_cons]
      cases hc : p.1 == k with
      | true => rfl
      | false => exact ih

theorem tGet_eq_zero_of_all_zero (t : List (String × ℚ)) (h : ∀ p ∈ t, p.2 = 0)
    (k : String) : tGet t k = 0 := by
  unfold tGet
  cases hf : t.find? (fun p => p.1 == k) with
  | none => rfl
  | some p => exact h p (List.mem_of_find?_eq_some hf)

theorem mem_setKey (t : List (String × ℚ)) (k : String) (v : ℚ) (p : String × ℚ)
    (hp : p ∈ setKey t k v) : p = (k, v) ∨ p ∈ t := by
  unfold setKey at hp
  rcases List.mem_map.1 hp with ⟨p0, hp0, rfl⟩
  by_cases h : p0.1 = k
  · simp [h]
  · simp [h, hp0]

/-- C9: on every exit path the returned timing dictionary still has exactly
the six stage keys in their initialization order, every timing key is
assigned at most once during the run, a key that was never assigned still
maps to its zero default, and — the wall clock being monotone — every stored
duration is non-negative. -/
theorem C9_timing (env : Env) (inP outP : String) (q : Nat) (hMono : Monotone env.clock) :
    ((safe_convert_mrxs_to_jpg_with_crop env inP outP q).1.2.2.map Prod.fst =
      [("total"), ("detection"), ("coordinate_calc"), ("image_reading"), ("processing"),
        ("saving")]) ∧
    (writeKeys (safe_convert_mrxs_to_jpg_with_crop env inP outP q).2).Nodup ∧
    (∀ k, k ∉ writeKeys (safe_convert_mrxs_to_jpg_with_crop env inP outP q).2 →
      tGet (safe_convert_mrxs_to_jpg_with_crop env inP outP q).1.2.2 k = 0) ∧
    (∀ p ∈ (safe_convert_mrxs_to_jpg_with_crop env inP outP q).1.2.2, 0 ≤ p.2) := by
  have hdiff : ∀ a b : Nat, a ≤ b → (0 : ℚ) ≤ env.clock b - env.clock a :=
    fun a b h => sub_nonneg.2 (hMono h)
  have hinit : ∀ p ∈ timingInit, (0 : ℚ) ≤ p.2 := by decide
  have hzero : ∀ p ∈ timingInit, p.2 = 0 := by decide
  cases hO : env.openSlide inP with
  | error e =>
    rw [safe_convert_open_err env inP outP q e hO]
    refine ⟨by simp [keys_setKey, timingInit], by simp [writeKeys], ?_, ?_⟩
    · intro k hk
      simp [writeKeys] at hk
      rw [tGet_setKey_ne _ _ _ _ (fun he => hk he.symm)]
      exact tGet_eq_zero_of_all_zero _ hzero k
    · intro p hp
      rcases mem_setKey _ _ _ _ hp with rfl | hp
      · exact hdiff 0 1 (by omega)
      · exact hinit p hp
  | ok s =>
    cases hR : s.read_region (0, 0) (coarseLevel s)
        (((coarseDims s).1 : Int), ((coarseDims s).2 : Int)) with
    | error e =>
      have hBody := pipelineBody_read_err env s outP q (env.clock 0) ⟨1, [], timingInit⟩ e hR
      rw [safe_convert_body_err env inP outP q s _ _ hO hBody]
      refine ⟨by simp [keys_setKey, timingInit], by simp [writeKeys, detectTrace], ?_, ?_⟩
      · intro k hk
        simp [writeKeys] at hk
        rw [tGet_setKey_ne _ _ _ _ (fun he => hk he.symm)]
        exact tGet_eq_zero_of_all_zero _ hzero k
      · intro p hp
        rcases mem_setKey _ _ _ _ hp with rfl | hp
        · exact hdiff 0 _ (by omega)
        · exact hinit p hp
    | ok raw =>
      cases hFC : findContoursExt (cvThreshold10 (cvtColorGray (toRGB raw))) with
      | nil =>
        have hBody := pipelineBody_nodetect env s outP q (env.clock 0) ⟨1, [], timingInit⟩
          raw hR hFC
        rw [safe_convert_body_ok env inP outP q s _ _ hO hBody]
        refine ⟨by simp [keys_setKey, timingInit], by simp [writeKeys, detectTrace], ?_, ?_⟩
        · intro k hk
          simp [writeKeys, detectTrace] at hk
          rw [tGet_setKey_ne _ _ _ _ (fun he => hk he.symm)]
          exact tGet_eq_zero_of_all_zero _ hzero k
        · intro p hp
          rcases mem_setKey _ _ _ _ hp with rfl | hp
          · exact hdiff _ _ (by omega)
          · exact hinit p hp
      | cons c cs =>
        have hBody := pipelineBody_detect env s outP q (env.clock 0) ⟨1, [], timingInit⟩
          raw c cs hR hFC
        rw [mappingOn_eq] at hBody
        set bb := boundingRect (pyMax contourArea c cs) with hbb
        set xh := pyInt ((bb.1 : ℚ) * coarseScale s) with hxh
        set yh := pyInt ((bb.2.1 : ℚ) * coarseScale s) with hyh
        set wh := pyInt ((bb.2.2.1 : ℚ) * coarseScale s) with hwh
        set hh2 := pyInt ((bb.2.2.2 : ℚ) * coarseScale s) with hhh
        cases hS : s.read_region (xh, yh) 0 (wh, hh2) with
        | error e =>
          rw [stagingOn_err _ _ _ _ _ _ _ _ _ _ e hS] at hBody
          rw [safe_convert_body_err env inP outP q s _ _ hO hBody]
          refine ⟨by simp [keys_setKey, timingInit], ?_, ?_, ?_⟩
          · simp [writeKeys, detectTrace, loopTraceErr]
          · intro k hk
            simp [writeKeys, detectTrace, loopTraceErr] at hk
            rw [tGet_setKey_ne _ _ _ _ (fun he => hk.2.2 he.symm),
              tGet_setKey_ne _ _ _ _ (fun he => hk.2.1 he.symm),
              tGet_setKey_ne _ _ _ _ (fun he => hk.1 he.symm)]
            exact tGet_eq_zero_of_all_zero _ hzero k
          · intro p hp
            rcases mem_setKey _ _ _ _ hp with rfl | hp
            · exact hdiff 0 _ (by omega)
            rcases mem_setKey _ _ _ _ hp with rfl | hp
            · exact hdiff _ _ (by omega)
            rcases mem_setKey _ _ _ _ hp with rfl | hp
            · exact hdiff _ _ (by omega)
            · exact hinit p hp
        | ok raw2 =>
          rw [stagingOn_ok _ _ _ _ _ _ _ _ _ _ raw2 hS, processingOn_eq] at hBody
          cases hW : env.save outP (toRGB raw2) with
          | error e =>
            rw [savingOn_err _ _ _ _ _ _ _ _ e hW] at hBody
            rw [safe_convert_body_err env inP outP q s _ _ hO hBody]
            refine ⟨by simp [keys_setKey, timingInit], ?_, ?_, ?_⟩
            · simp [writeKeys, detectTrace, loopTrace]
            · intro k hk
              simp [writeKeys, detectTrace, loopTrace] at hk
              rw [tGet_setKey_ne _ _ _ _ (fun he => hk.2.2.2.2 he.symm),
                tGet_setKey_ne _ _ _ _ (fun he => hk.2.2.2.1 he.symm),
                tGet_setKey_ne _ _ _ _ (fun he => hk.2.2.1 he.symm),
                tGet_setKey_ne _ _ _ _ (fun he => hk.2.1 he.symm),
                tGet_setKey_ne _ _ _ _ (fun he => hk.1 he.symm)]
              exact tGet_eq_zero_of_all_zero _ hzero k
            · intro p hp
              rcases mem_setKey _ _ _ _ hp with rfl | hp
              · exact hdiff 0 _ (by omega)
              rcases mem_setKey _ _ _ _ hp with rfl | hp
              · exact hdiff _ _ (by omega)
              rcases mem_setKey _ _ _ _ hp with rfl | hp
              · exact hdiff _ _ (by omega)
              rcases mem_setKey _ _ _ _ hp with rfl | hp
              · exact hdiff _ _ (by omega)
              rcases mem_setKey _ _ _ _ hp with rfl | hp
              · exact hdiff _ _ (by omega)
              · exact hinit p hp
          | ok u =>
            cases u
            rw [savingOn_ok _ _ _ _ _ _ _ _ hW] at hBody
            rw [safe_convert_body_ok env inP outP q s _ _ hO hBody]
            refine ⟨by simp [keys_setKey, timingInit], ?_, ?_, ?_⟩
            · simp [writeKeys, detectTrace, loopTrace]
            · intro k hk
              simp [writeKeys, detectTrace, loopTrace] at hk
              rw [tGet_setKey_ne _ _ _ _ (fun he => hk.2.2.2.2.2 he.symm),
                tGet_setKey_ne _ _ _ _ (fun he => hk.2.2.2.2.1 he.symm),
                tGet_setKey_ne _ _ _ _ (fun he => hk.2.2.2.1 he.symm),
                tGet_setKey_ne _ _ _ _ (fun he => hk.2.2.1 he.symm),
                tGet_setKey_ne _ _ _ _ (fun he => hk.2.1 he.symm),
                tGet_setKey_ne _ _ _ _ (fun he => hk.1 he.symm)]
              exact tGet_eq_zero_of_all_zero _ hzero k
            · intro p hp
              rcases mem_setKey _ _ _ _ hp with rfl | hp
              · exact hdiff 0 _ (by omega)
              rcases mem_setKey _ _ _ _ hp with rfl | hp
              · exact hdiff _ _ (by omega)
              rcases mem_setKey _ _ _ _ hp with rfl | hp
              · exact hdiff _ _ (by omega)
              rcases mem_setKey _ _ _ _ hp with rfl | hp
              · exact hdiff _ _ (by omega)
              rcases mem_setKey _ _ _ _ hp with rfl | hp
              · exact hdiff _ _ (by omega)
              rcases mem_setKey _ _ _ _ hp with rfl | hp
              · exact hdiff _ _ (by omega)
              · exact hinit p hp

/-- C9, witness at the black slide with the strictly increasing clock. -/
theorem C9_witness :
    Monotone envB.clock ∧
    (safe_convert_mrxs_to_jpg_with_crop envB ("black.mrxs") ("out.png") 80).1.2.2.map
        Prod.fst =
      [("total"), ("detection"), ("coordinate_calc"), ("image_reading"), ("processing"),
        ("saving")] :=
  ⟨envB_clock_mono,
    (C9_timing envB ("black.mrxs") ("out.png") 80 envB_clock_mono).1⟩

/-! ### Claim C2: helper lemmas about the detection model -/

theorem rowRunsAux_le :
    ∀ (bs : List Bool) (i : Nat) (acc : Option Nat), (∀ s, acc = some s → s < i) →
      ∀ p ∈ rowRunsAux bs i acc, p.1 ≤ p.2 := by
  intro bs
  induction bs with
  | nil =>
    intro i acc hacc p hp
    cases acc with
    | none => simp [rowRunsAux] at hp
    | some s =>
      simp only [rowRunsAux, List.mem_singleton] at hp
      subst hp
      have := hacc s rfl
      simp only []
      omega
  | cons b t ih =>
    intro i acc hacc p hp
    cases acc with
    | none =>
      cases b with
      | true =>
        rw [show rowRunsAux (true :: t) i none = rowRunsAux t (i + 1) (some i) from rfl] at hp
        exact ih (i + 1) (some i) (fun s hs => by cases hs; omega) p hp
      | false =>
        rw [show rowRunsAux (false :: t) i none = rowRunsAux t (i + 1) none from rfl] at hp
        exact ih (i + 1) none (fun s hs => by cases hs) p hp
    | some s =>
      cases b with
      | true =>
        rw [show rowRunsAux (true :: t) i (some s) = rowRunsAux t (i + 1) (some s) from rfl] at hp
        exact ih (i + 1) (some s) (fun s' hs' => by cases hs'; exact lt_trans (hacc s rfl) (by omega)) p hp
      | false =>
        rw [show rowRunsAux (false :: t) i (some s) =
          (s, i - 1) :: rowRunsAux t (i + 1) none from rfl] at hp
        rcases List.mem_cons.1 hp with rfl | hp
        · have := hacc s rfl
          simp only []
          omega
        · exact ih (i + 1) none (fun s' hs' => by cases hs') p hp

/-- Every foreground run has a non-empty column interval. -/
theorem maskRuns_lo_le_hi (m : Image Bool) : ∀ r ∈ maskRuns m, r.lo ≤ r.hi := by
  intro r hr
  unfold maskRuns at hr
  rw [List.mem_flatten] at hr
  rcases hr with ⟨l, hl, hrl⟩
  rcases List.mem_map.1 hl with ⟨p, _, rfl⟩
  rcases List.mem_map.1 hrl with ⟨q, hq, rfl⟩
  exact rowRunsAux_le p.2 0 none (fun s hs => by cases hs) q hq

theorem foldr_min_le {xs : List Nat} {a : Nat} :
    xs.foldr min a ≤ a ∧ ∀ x ∈ xs, xs.foldr min a ≤ x := by
  induction xs with
  | nil => exact ⟨le_refl a, by simp⟩
  | cons x t ih =>
    refine ⟨le_trans (min_le_right _ _) ih.1, ?_⟩
    intro y hy
    rcases List.mem_cons.1 hy with rfl | hy
    · exact min_le_left _ _
    · exact le_trans (min_le_right _ _) (ih.2 y hy)

theorem foldr_min_mem (xs : List Nat) (a : Nat) :
    xs.foldr min a = a ∨ xs.foldr min a ∈ xs := by
  induction xs with
  | nil => exact Or.inl rfl
  | cons x t ih =>
    rcases Nat.le_total x (t.foldr min a) with h | h
    · rw [show (x :: t).foldr min a = min x (t.foldr min a) from rfl, min_eq_left h]
      exact Or.inr (List.mem_cons_self _ _)
    · rw [show (x :: t).foldr min a = min x (t.foldr min a) from rfl, min_eq_right h]
      rcases ih with h1 | h1
      · exact Or.inl h1
      · exact Or.inr (List.mem_cons_of_mem _ h1)

theorem le_foldr_max {xs : List Nat} {a : Nat} :
    a ≤ xs.foldr max a ∧ ∀ x ∈ xs, x ≤ xs.foldr max a := by
  induction xs with
  | nil => exact ⟨le_refl a, by simp⟩
  | cons x t ih =>
    refine ⟨le_trans ih.1 (le_max_right _ _), ?_⟩
    intro y hy
    rcases List.mem_cons.1 hy with rfl | hy
    · exact le_max_left _ _
    · exact le_trans (ih.2 y hy) (le_max_right _ _)

theorem foldr_max_mem (xs : List Nat) (a : Nat) :
    xs.foldr max a = a ∨ xs.foldr max a ∈ xs := by
  induction xs with
  | nil => exact Or.inl rfl
  | cons x t ih =>
    rcases Nat.le_total x (t.foldr max a) with h | h
    · rw [show (x :: t).foldr max a = max x (t.foldr max a) from rfl, max_eq_right h]
      rcases ih with h1 | h1
      · exact Or.inl h1
      · exact Or.inr (List.mem_cons_of_mem _ h1)
    · rw [show (x :: t).foldr max a = max x (t.foldr max a) from rfl, max_eq_left h]
      exact Or.inr (List.mem_cons_self _ _)

/-- Declarative reading of `boundingRect L = (x, y, w, h)`: `x` and `y` are
attained lower bounds of the runs' columns and rows, and `x + w` and `y + h`
are attained strict upper bounds — the minimal axis-aligned rectangle
containing the contour. -/
def BoundingRectSpec (L : List Run) : Prop :=
  (∃ r ∈ L, r.lo = (boundingRect L).1) ∧ (∀ r ∈ L, (boundingRect L).1 ≤ r.lo) ∧
  (∃ r ∈ L, r.row = (boundingRect L).2.1) ∧ (∀ r ∈ L, (boundingRect L).2.1 ≤ r.row) ∧
  (∃ r ∈ L, r.hi + 1 = (boundingRect L).1 + (boundingRect L).2.2.1) ∧
  (∀ r ∈ L, r.hi + 1 ≤ (boundingRect L).1 + (boundingRect L).2.2.1) ∧
  (∃ r ∈ L, r.row + 1 = (boundingRect L).2.1 + (boundingRect L).2.2.2) ∧
  (∀ r ∈ L, r.row + 1 ≤ (boundingRect L).2.1 + (boundingRect L).2.2.2)

theorem boundingRect_spec (L : List Run) (hne : L ≠ []) (hlohi : ∀ r ∈ L, r.lo ≤ r.hi) :
    BoundingRectSpec L := by
  cases L with
  | nil => exact absurd rfl hne
  | cons q qs =>
    have hx : boundingRect (q :: qs) =
        ((qs.map Run.lo).foldr min q.lo, (qs.map Run.row).foldr min q.row,
          (qs.map Run.hi).foldr max q.hi + 1 - (qs.map Run.lo).foldr min q.lo,
          (qs.map Run.row).foldr max q.row + 1 - (qs.map Run.row).foldr min q.row) := rfl
    set x := (qs.map Run.lo).foldr min q.lo with hdx
    set y := (qs.map Run.row).foldr min q.row with hdy
    set xe := (qs.map Run.hi).foldr max q.hi with hdxe
    set ye := (qs.map Run.row).foldr max q.row with hdye
    have hmin_le : ∀ r ∈ q :: qs, x ≤ r.lo := by
      intro r hr
      rcases List.mem_cons.1 hr with rfl | hr
      · exact foldr_min_le.1
      · exact foldr_min_le.2 r.lo (List.mem_map_of_mem Run.lo hr)
    have hmin_mem : ∃ r ∈ q :: qs, r.lo = x := by
      rcases foldr_min_mem (qs.map Run.lo) q.lo with h | h
      · exact ⟨q, List.mem_cons_self _ _, h.symm⟩
      · rcases List.mem_map.1 h with ⟨r, hr, hrx⟩
        exact ⟨r, List.mem_cons_of_mem _ hr, hrx⟩
    have hymin_le : ∀ r ∈ q :: qs, y ≤ r.row := by
      intro r hr
      rcases List.mem_cons.1 hr with rfl | hr
      · exact foldr_min_le.1
      · exact foldr_min_le.2 r.row (List.mem_map_of_mem Run.row hr)
    have hymin_mem : ∃ r ∈ q :: qs, r.row = y := by
      rcases foldr_min_mem (qs.map Run.row) q.row with h | h
      · exact ⟨q, List.mem_cons_self _ _, h.symm⟩
      · rcases List.mem_map.1 h with ⟨r, hr, hrx⟩
        exact ⟨r, List.mem_cons_of_mem _ hr, hrx⟩
    have hmax_le : ∀ r ∈ q :: qs, r.hi ≤ xe := by
      intro r hr
      rcases List.mem_cons.1 hr with rfl | hr
      · exact le_foldr_max.1
      · exact le_foldr_max.2 r.hi (List.mem_map_of_mem Run.hi hr)
    have hmax_mem : ∃ r ∈ q :: qs, r.hi = xe := by
      rcases foldr_max_mem (qs.map Run.hi) q.hi with h | h
      · exact ⟨q, List.mem_cons_self _ _, h.symm⟩
      · rcases List.mem_map.1 h with ⟨r, hr, hrx⟩
        exact ⟨r, List.mem_cons_of_mem _ hr, hrx⟩
    have hymax_le : ∀ r ∈ q :: qs, r.row ≤ ye := by
      intro r hr
      rcases List.mem_cons.1 hr with rfl | hr
      · exact le_foldr_max.1
      · exact le_foldr_max.2 r.row (List.mem_map_of_mem Run.row hr)
    have hymax_mem : ∃ r ∈ q :: qs, r.row = ye := by
      rcases foldr_max_mem (qs.map Run.row) q.row with h | h
      · exact ⟨q, List.mem_cons_self _ _, h.symm⟩
      · rcases List.mem_map.1 h with ⟨r, hr, hrx⟩
        exact ⟨r, List.mem_cons_of_mem _ hr, hrx⟩
    have hxxe : x ≤ xe + 1 := by
      rcases hmin_mem with ⟨r, hr, hrx⟩
      have := hlohi r hr
      have := hmax_le r hr
      omega
    have hyye : y ≤ ye + 1 := by
      rcases hymin_mem with ⟨r, hr, hry⟩
      have := hymax_le r hr
      omega
    refine ⟨hmin_mem, hmin_le, hymin_mem, hymin_le, ?_, ?_, ?_, ?_⟩
    · rcases hmax_mem with ⟨r, hr, hrx⟩
      exact ⟨r, hr, by rw [hx]; simp only []; omega⟩
    · intro r hr
      have := hmax_le r hr
      rw [hx]
      simp only []
      omega
    · rcases hymax_mem with ⟨r, hr, hry⟩
      exact ⟨r, hr, by rw [hx]; simp only []; omega⟩
    · intro r hr
      have := hymax_le r hr
      rw [hx]
      simp only []
      omega

/-- The threshold mask marks exactly the pixels of intensity greater than 10
(out-of-range lookups are background on the left and intensity 0 on the
right). -/
theorem bGet_cvThreshold10 (g : Image Nat) (r c : Nat) :
    bGet (cvThreshold10 g) r c = true ↔ 10 < nGet g r c := by
  unfold bGet nGet cvThreshold10
  simp only [List.getD_eq_getElem?_getD, List.getElem?_map]
  cases hrow : g[r]? with
  | none => simp
  | some row =>
    simp only [Option.map_some', Option.getD_some, List.getElem?_map]
    cases hv : row[c]? with
    | none => simp
    | some v => simp

/-- Declarative description of an outer connected component of a mask, as a
set of foreground runs: the runs of a non-empty, 8-connected-maximal
reachability class, one of whose runs touches (4-adjacency) a background run
that is 4-connected to the frame (row 0 of the padded background). -/
def OuterComponentOf (m : Image Bool) (L : List Run) : Prop :=
  ∃ S : Finset (Fin (maskRuns m).length),
    L = compRuns (maskRuns m) S ∧ S.Nonempty ∧
    (∀ i ∈ S, ∀ j, (j ∈ S ↔ ReachIdx (maskRuns m) adj8 i j)) ∧
    (∃ i ∈ S, ∃ b : Fin (bgRuns m).length,
      (∃ f : Fin (bgRuns m).length, ((bgRuns m).get f).row = 0 ∧
        ReachIdx (bgRuns m) adj4 f b) ∧
      adj4 (padRun ((maskRuns m).get i)) ((bgRuns m).get b) = true)

/-- Every contour returned by the `findContours` model is an outer connected
component of the mask. -/
theorem findContoursExt_outer (m : Image Bool) :
    ∀ L ∈ findContoursExt m, OuterComponentOf m L := by
  intro L hL
  unfold findContoursExt at hL
  rcases List.mem_map.1 hL with ⟨S, hS, rfl⟩
  rcases List.mem_filter.1 hS with ⟨hSc, hSo⟩
  have hSd := List.mem_dedup.1 (by
    unfold componentsList at hSc
    exact hSc)
  rcases List.mem_map.1 hSd with ⟨i0, _, rfl⟩
  refine ⟨componentFinset (maskRuns m) adj8 i0, rfl, ?_, ?_, ?_⟩
  · exact ⟨i0, subset_grow _ _ _ _ (Finset.mem_singleton_self i0)⟩
  · intro i hi j
    have hi' : ReachIdx (maskRuns m) adj8 i0 i :=
      (mem_closure_singleton_iff _ _ _ _).1 hi
    constructor
    · intro hj
      have hj' : ReachIdx (maskRuns m) adj8 i0 j :=
        (mem_closure_singleton_iff _ _ _ _).1 hj
      exact Relation.ReflTransGen.trans (reachIdx_symm _ _ adj8_symm hi') hj'
    · intro hij
      exact (mem_closure_singleton_iff _ _ _ _).2 (Relation.ReflTransGen.trans hi' hij)
  · have := of_decide_eq_true hSo
    rcases this with ⟨i, hiS, b, hbO, hadj⟩
    rcases reach_of_mem_grow (bgRuns m) adj4 _ _ b hbO with ⟨f, hf, hfr⟩
    rcases Finset.mem_filter.1 hf with ⟨_, hf0⟩
    exact ⟨i, hiS, b, ⟨f, hf0, hfr⟩, hadj⟩

theorem compRuns_subset (rs : List Run) (S : Finset (Fin rs.length)) :
    ∀ r ∈ compRuns rs S, r ∈ rs := by
  intro r hr
  unfold compRuns at hr
  rcases List.mem_map.1 hr with ⟨i, _, rfl⟩
  exact List.get_mem rs i.val i.isLt

theorem compRuns_ne_nil (rs : List Run) (S : Finset (Fin rs.length)) (hS : S.Nonempty) :
    compRuns rs S ≠ [] := by
  rcases hS with ⟨i, hi⟩
  have hmem : rs.get i ∈ compRuns rs S :=
    List.mem_map_of_mem _ (List.mem_filter.2 ⟨List.mem_finRange i, by simpa using hi⟩)
  exact List.ne_nil_of_mem hmem

/-- C2: with the slide open and the coarse read succeeding, detection
operates on the coarsest level `level_count - 1` and reads its full plane;
the binarization marks exactly the pixels of intensity strictly greater
than 10 as foreground; every contour considered is an outer connected
component of that mask; the run takes the `No object detected` failure exit
iff zero components are found (equivalently, iff the coordinate-calculation
stage is never entered); and when components exist the selected one has
maximal area among all of them — area in the sense of the key the program
passes to `max`, namely `cv2.contourArea`, the Green-formula area of the
traced outer border, modelled in half-pixel units by `contourArea` — and the
detection result is its axis-aligned bounding box. -/
theorem C2_detection (env : Env) (inP outP : String) (q : Nat) (s : Slide) (raw : Image RGBA)
    (hOpen : env.openSlide inP = .ok s)
    (hRead : s.read_region (0, 0) (coarseLevel s)
      (((coarseDims s).1 : Int), ((coarseDims s).2 : Int)) = .ok raw) :
    (coarseLevel s = s.level_count - 1 ∧
      Ev.readRegion (0, 0) (coarseLevel s)
        (((coarseDims s).1 : Int), ((coarseDims s).2 : Int)) ∈
        (safe_convert_mrxs_to_jpg_with_crop env inP outP q).2) ∧
    (∀ r c', bGet (cvThreshold10 (cvtColorGray (toRGB raw))) r c' = true ↔
      10 < nGet (cvtColorGray (toRGB raw)) r c') ∧
    (∀ L ∈ findContoursExt (cvThreshold10 (cvtColorGray (toRGB raw))),
      OuterComponentOf (cvThreshold10 (cvtColorGray (toRGB raw))) L) ∧
    (findContoursExt (cvThreshold10 (cvtColorGray (toRGB raw))) = [] →
      (safe_convert_mrxs_to_jpg_with_crop env inP outP q).1.1 = false ∧
      (safe_convert_mrxs_to_jpg_with_crop env inP outP q).1.2.1 =
        ("Error: No object detected")) ∧
    (findContoursExt (cvThreshold10 (cvtColorGray (toRGB raw))) = [] ↔
      Ev.setDesc 0 ("Calculating coordinates") ∉
        (safe_convert_mrxs_to_jpg_with_crop env inP outP q).2) ∧
    (∀ c cs', findContoursExt (cvThreshold10 (cvtColorGray (toRGB raw))) = c :: cs' →
      pyMax contourArea c cs' ∈ findContoursExt (cvThreshold10 (cvtColorGray (toRGB raw))) ∧
      (∀ C ∈ findContoursExt (cvThreshold10 (cvtColorGray (toRGB raw))),
        contourArea C ≤ contourArea (pyMax contourArea c cs')) ∧
      BoundingRectSpec (pyMax contourArea c cs')) := by
  have hsel : ∀ c cs', findContoursExt (cvThreshold10 (cvtColorGray (toRGB raw))) = c :: cs' →
      pyMax contourArea c cs' ∈ findContoursExt (cvThreshold10 (cvtColorGray (toRGB raw))) ∧
      (∀ C ∈ findContoursExt (cvThreshold10 (cvtColorGray (toRGB raw))),
        contourArea C ≤ contourArea (pyMax contourArea c cs')) ∧
      BoundingRectSpec (pyMax contourArea c cs') := by
    intro c cs' hcs
    have hmem : pyMax contourArea c cs' ∈
        findContoursExt (cvThreshold10 (cvtColorGray (toRGB raw))) := by
      rw [hcs]
      rcases pyMax_mem contourArea c cs' with h | h
      · rw [h]; exact List.mem_cons_self _ _
      · exact List.mem_cons_of_mem _ h
    refine ⟨hmem, ?_, ?_⟩
    · intro C hC
      rw [hcs] at hC
      rcases List.mem_cons.1 hC with rfl | hC
      · exact (le_pyMax contourArea C cs').1
      · exact (le_pyMax contourArea c cs').2 C hC
    · rcases findContoursExt_outer _ _ hmem with ⟨S, hLS, hSne, _, _⟩
      refine boundingRect_spec _ ?_ ?_
      · rw [hLS]
        exact compRuns_ne_nil _ S hSne
      · intro r hr
        rw [hLS] at hr
        exact maskRuns_lo_le_hi _ r (compRuns_subset _ S r hr)
  have hpaths : (Ev.readRegion (0, 0) (coarseLevel s)
        (((coarseDims s).1 : Int), ((coarseDims s).2 : Int)) ∈
        (safe_convert_mrxs_to_jpg_with_crop env inP outP q).2) ∧
      (findContoursExt (cvThreshold10 (cvtColorGray (toRGB raw))) = [] →
        (safe_convert_mrxs_to_jpg_with_crop env inP outP q).1.1 = false ∧
        (safe_convert_mrxs_to_jpg_with_crop env inP outP q).1.2.1 =
          ("Error: No object detected")) ∧
      (findContoursExt (cvThreshold10 (cvtColorGray (toRGB raw))) = [] ↔
        Ev.setDesc 0 ("Calculating coordinates") ∉
          (safe_convert_mrxs_to_jpg_with_crop env inP outP q).2) := by
    cases hFC : findContoursExt (cvThreshold10 (cvtColorGray (toRGB raw))) with
    | nil =>
      have hBody := pipelineBody_nodetect env s outP q (env.clock 0) ⟨1, [], timingInit⟩
        raw hRead hFC
      rw [safe_convert_body_ok env inP outP q s _ _ hOpen hBody]
      refine ⟨by simp [detectTrace], fun _ => ⟨rfl, rfl⟩, ?_⟩
      exact iff_of_true rfl (by simp [detectTrace])
    | cons c cs' =>
      have hBody := pipelineBody_detect env s outP q (env.clock 0) ⟨1, [], timingInit⟩
        raw c cs' hRead hFC
      rw [mappingOn_eq] at hBody
      set bb := boundingRect (pyMax contourArea c cs') with hbb
      set xh := pyInt ((bb.1 : ℚ) * coarseScale s) with hxh
      set yh := pyInt ((bb.2.1 : ℚ) * coarseScale s) with hyh
      set wh := pyInt ((bb.2.2.1 : ℚ) * coarseScale s) with hwh
      set hh2 := pyInt ((bb.2.2.2 : ℚ) * coarseScale s) with hhh
      cases hS : s.read_region (xh, yh) 0 (wh, hh2) with
      | error e =>
        rw [stagingOn_err _ _ _ _ _ _ _ _ _ _ e hS] at hBody
        rw [safe_convert_body_err env inP outP q s _ _ hOpen hBody]
        refine ⟨by simp [detectTrace], fun h => absurd h (by simp), ?_⟩
        exact iff_of_false (by simp) (not_not_intro (by simp [detectTrace]))
      | ok raw2 =>
        rw [stagingOn_ok _ _ _ _ _ _ _ _ _ _ raw2 hS, processingOn_eq] at hBody
        cases hW : env.save outP (toRGB raw2) with
        | error e =>
          rw [savingOn_err _ _ _ _ _ _ _ _ e hW] at hBody
          rw [safe_convert_body_err env inP outP q s _ _ hOpen hBody]
          refine ⟨by simp [detectTrace], fun h => absurd h (by simp), ?_⟩
          exact iff_of_false (by simp) (not_not_intro (by simp [detectTrace]))
        | ok u =>
          cases u
          rw [savingOn_ok _ _ _ _ _ _ _ _ hW] at hBody
          rw [safe_convert_body_ok env inP outP q s _ _ hOpen hBody]
          refine ⟨by simp [detectTrace], fun h => absurd h (by simp), ?_⟩
          exact iff_of_false (by simp) (not_not_intro (by simp [detectTrace]))
  exact ⟨⟨rfl, hpaths.1⟩, fun r c' => bGet_cvThreshold10 _ r c', findContoursExt_outer _,
    hpaths.2.1, hpaths.2.2, hsel⟩

/-- C2, witness at the one-dot slide: the hypotheses hold and, e.g., the
threshold-semantics conjunct holds there. -/
theorem C2_witness :
    (envD.openSlide ("a.mrxs") = .ok dotSlide ∧
      dotSlide.read_region (0, 0) (coarseLevel dotSlide)
        (((coarseDims dotSlide).1 : Int), ((coarseDims dotSlide).2 : Int)) = .ok dotImg) ∧
    (∀ r c', bGet (cvThreshold10 (cvtColorGray (toRGB dotImg))) r c' = true ↔
      10 < nGet (cvtColorGray (toRGB dotImg)) r c') :=
  ⟨⟨rfl, rfl⟩,
    (C2_detection envD ("a.mrxs") ("o.png") 80 dotSlide dotImg rfl rfl).2.1⟩

end MRXS
